import Mathlib

/-!
Verification development for the `serial` package: a duplex serial-port
transport with two backends (a POSIX polling backend in `serial_posix.go`
and a Windows overlapped backend in `serial_windows.go`), a configuration
translator, and a close/deadline discipline.

The definitions below are a shallow embedding of the Go source.  Machine
integers are modelled as `Nat`/`Int` with explicit two's-complement
conversions where the source converts; time instants are `Int` nanoseconds
since Go's zero time; the OS is an oracle supplying the outcome of each
native call.
-/

namespace Serial

/-- Errors surfaced by `Read`/`Write`: `serial.ErrPortClosed`,
`os.ErrDeadlineExceeded`, or a native OS error carrying its code. -/
inductive IOErr where
  | portClosed
  | deadlineExceeded
  | native (code : Nat)
  deriving DecidableEq, Repr

/-- Go's `uint32(i)` conversion for an `int64` value: truncation to the low
32 bits, i.e. reduction mod 2^32 read as an unsigned number. -/
def goUint32 (i : Int) : Nat := (i.emod 4294967296).toNat

/-- Largest value of Go's `time.Duration` (`int64` nanoseconds). -/
def maxDuration : Int := 9223372036854775807

/-- Smallest value of Go's `time.Duration`. -/
def minDuration : Int := -9223372036854775808

/-- Go's `t.Sub(u)`: the difference, saturated to the `Duration` range. -/
def timeSub (t u : Int) : Int := max minDuration (min maxDuration (t - u))

/-- Go's `Duration.Milliseconds()`: `int64` division truncating toward zero. -/
def durMilliseconds (d : Int) : Int := d.tdiv 1000000

/-- Go's `a &^ b` (AND NOT) on unsigned words, expressed on `Nat`:
clear in `a` every bit set in `b`. -/
def andNot (a b : Nat) : Nat := a ^^^ (a &&& b)

/-- Portable configuration (`serial.Config`).  Go's `StopBits` and `Parity`
are integer types; the named constants are `StopBitsNil = 0`, `StopBits1 = 1`,
`StopBits2 = 2` and `ParityNil = 0`, `ParityNone = 1`, `ParityOdd = 2`,
`ParityEven = 3`. -/
structure Config where
  baudRate : Int
  dataBits : Int
  stopBits : Int
  parity : Int
  deriving DecidableEq, Repr

def stopBitsNil : Int := 0
def stopBits1 : Int := 1
def stopBits2 : Int := 2

def parityNil : Int := 0
def parityNone : Int := 1
def parityOdd : Int := 2
def parityEven : Int := 3

/-- The all-zero configuration (every field unset). -/
def zeroConfig : Config := ⟨0, 0, 0, 0⟩

/-- Which configuration field a translation error is about. -/
inductive ConfField where
  | baudRate
  | dataBits
  | stopBits
  | parity
  deriving DecidableEq, Repr

/-- A translation failure: `fmt.Errorf("unsupported <field>: <value>")`
names the offending field and carries the offending value. -/
structure ConfErr where
  cfield : ConfField
  cvalue : Int
  deriving DecidableEq, Repr

/-! ## Windows overlapped backend: the DCB control block -/

/-- The Windows `DCB` device control block as laid out in
`serial_windows.go` (`Flags` is the packed bitfield). -/
structure Dcb where
  dcbLength : Nat
  baudRate : Nat
  flags : Nat
  wReserved : Nat
  xonLim : Nat
  xoffLim : Nat
  byteSize : Nat
  parity : Nat
  stopBits : Nat
  xonChar : Int
  xoffChar : Int
  errorChar : Int
  eofChar : Int
  evtChar : Int
  wReserved1 : Nat
  deriving DecidableEq, Repr

def dcbfBinary : Nat := 0b01 <<< 0
def dcbfParity : Nat := 0b01 <<< 1
def dcbfOutxCTSFlow : Nat := 0b01 <<< 2
def dcbfOutxDSRFlow : Nat := 0b01 <<< 3
def dcbfDTRControl : Nat := 0b11 <<< 4
def dcbfDSRSensitivity : Nat := 0b01 <<< 6
def dcbfTXContinueOnXoff : Nat := 0b01 <<< 7
def dcbfOutX : Nat := 0b01 <<< 8
def dcbfInX : Nat := 0b01 <<< 9
def dcbfErrorChar : Nat := 0b01 <<< 10
def dcbfNull : Nat := 0b01 <<< 11
def dcbfRTSControl : Nat := 0b11 <<< 12
def dcbfAbortOnError : Nat := 0b01 <<< 14

def cbr110 : Nat := 0x6e
def cbr300 : Nat := 0x12c
def cbr600 : Nat := 0x258
def cbr1200 : Nat := 0x4b0
def cbr2400 : Nat := 0x960
def cbr4800 : Nat := 0x12c0
def cbr9600 : Nat := 0x2580
def cbr14400 : Nat := 0x3840
def cbr19200 : Nat := 0x4b00
def cbr38400 : Nat := 0x9600
def cbr57600 : Nat := 0xe100
def cbr115200 : Nat := 0x1c200
def cbr128000 : Nat := 0x1f400
def cbr256000 : Nat := 0x3e800

def oneStopBit : Nat := 0x0
def twoStopBits : Nat := 0x2

def evenParity : Nat := 0x2
def oddParity : Nat := 0x1
def noParity : Nat := 0x0

/-- The `baudRates` map of `serial_windows.go`: portable rate to native
code, with `0` mapping to the 19200 default. -/
def baudRatesWinTbl : List (Int × Nat) :=
  [(0, cbr19200),
   (110, cbr110), (300, cbr300), (600, cbr600), (1200, cbr1200),
   (2400, cbr2400), (4800, cbr4800), (9600, cbr9600), (14400, cbr14400),
   (19200, cbr19200), (38400, cbr38400), (57600, cbr57600),
   (115200, cbr115200), (128000, cbr128000), (256000, cbr256000)]

/-- Map lookup in the Windows `baudRates` table. -/
def baudRatesWin (b : Int) : Option Nat := baudRatesWinTbl.lookup b

/-- `dcbInit`: enable binary mode, clear hardware and software flow control,
parity-error substitution, and null stripping, in the `Flags` bitfield. -/
def dcbInit (d : Dcb) : Dcb :=
  let f := d.flags ||| dcbfBinary
  let f := andNot f dcbfOutxCTSFlow
  let f := andNot f dcbfOutxDSRFlow
  let f := andNot f dcbfDTRControl
  let f := andNot f dcbfRTSControl
  let f := andNot f dcbfOutX
  let f := andNot f dcbfInX
  let f := andNot f dcbfErrorChar
  let f := andNot f dcbfNull
  { d with flags := f }

/-- `dcbSetBaudRate`: table lookup; unknown rates fail naming the value. -/
def dcbSetBaudRate (d : Dcb) (baudRate : Int) : Except ConfErr Dcb :=
  match baudRatesWin baudRate with
  | some rate => .ok { d with baudRate := rate }
  | none => .error ⟨.baudRate, baudRate⟩

/-- `dcbSetByteSize`: 5–8 data bits, `0` meaning the default 8. -/
def dcbSetByteSize (d : Dcb) (byteSize : Int) : Except ConfErr Dcb :=
  if byteSize = 8 ∨ byteSize = 0 then .ok { d with byteSize := 8 }
  else if byteSize = 7 then .ok { d with byteSize := 7 }
  else if byteSize = 6 then .ok { d with byteSize := 6 }
  else if byteSize = 5 then .ok { d with byteSize := 5 }
  else .error ⟨.dataBits, byteSize⟩

/-- `dcbSetStopBits`: 1 or 2 stop bits, `StopBitsNil` meaning the default 1. -/
def dcbSetStopBits (d : Dcb) (stopBits : Int) : Except ConfErr Dcb :=
  if stopBits = stopBits1 ∨ stopBits = stopBitsNil then
    .ok { d with stopBits := oneStopBit }
  else if stopBits = stopBits2 then .ok { d with stopBits := twoStopBits }
  else .error ⟨.stopBits, stopBits⟩

/-- `dcbSetParity`: none/even/odd, `ParityNil` meaning the default even;
sets both the `fParity` flag bit and the `Parity` byte. -/
def dcbSetParity (d : Dcb) (parity : Int) : Except ConfErr Dcb :=
  if parity = parityNone then
    .ok { d with flags := andNot d.flags dcbfParity, parity := noParity }
  else if parity = parityEven ∨ parity = parityNil then
    .ok { d with flags := d.flags ||| dcbfParity, parity := evenParity }
  else if parity = parityOdd then
    .ok { d with flags := d.flags ||| dcbfParity, parity := oddParity }
  else .error ⟨.parity, parity⟩

/-- The DCB translation pipeline of the Windows `nativeOpen`: `dcbInit`
followed by the four field setters in source order, each `if err != nil`
returning the error immediately. -/
def configureDCB (conf : Config) (d : Dcb) : Except ConfErr Dcb :=
  match dcbSetBaudRate (dcbInit d) conf.baudRate with
  | .error e => .error e
  | .ok d =>
    match dcbSetByteSize d conf.dataBits with
    | .error e => .error e
    | .ok d =>
      match dcbSetStopBits d conf.stopBits with
      | .error e => .error e
      | .ok d =>
        match dcbSetParity d conf.parity with
        | .error e => .error e
        | .ok d => .ok d

/-- Device-level operations performed by the Windows `nativeOpen`, in order:
`CreateFile`, `GetCommState`, then — only on successful translation —
`SetCommState` with the translated block. -/
inductive WinOp where
  | create
  | getState
  | setState (d : Dcb)
  deriving DecidableEq, Repr

/-- Interaction trace and outcome of the Windows `nativeOpen` given the
device's current control block `d0`. -/
def winOpenTrace (conf : Config) (d0 : Dcb) : List WinOp × Option ConfErr :=
  match configureDCB conf d0 with
  | .ok d' => ([.create, .getState, .setState d'], none)
  | .error e => ([.create, .getState], some e)

/-! ## Windows overlapped backend: port, Read, Write, deadlines -/

/-- The Windows `port`: the native handle (`none` models
`windows.InvalidHandle`) and the two absolute deadlines (`0` models the zero
`time.Time`). -/
structure WinPort where
  handle : Option Nat
  readDeadline : Int
  writeDeadline : Int
  deriving DecidableEq, Repr

/-- Outcome of issuing `ReadFile`/`WriteFile`: immediate success, the
`ERROR_IO_PENDING` status, cancellation (`ERROR_OPERATION_ABORTED`), or
another native error. -/
inductive WinIssue where
  | ok
  | pending
  | aborted
  | fail (code : Nat)
  deriving DecidableEq, Repr

/-- Outcome of `GetOverlappedResult`: completion with a transferred byte
count, cancellation, or another native error. -/
inductive WinCompl where
  | ok (done : Nat)
  | aborted
  | fail (code : Nat)
  deriving DecidableEq, Repr

/-- The per-call comm timeouts block (the fields the code programs). -/
structure CommTimeouts where
  readInterval : Nat
  readMult : Nat
  readConst : Nat
  writeMult : Nat
  writeConst : Nat
  deriving DecidableEq, Repr

/-- OS oracle for one overlapped `Read`/`Write` call: the wall-clock time at
the deadline computation, the device's current timeouts, and the results of
the native calls made. -/
structure WinEnv where
  now : Int
  ct0 : CommTimeouts
  getTimeoutsErr : Option Nat
  setTimeoutsErr : Option Nat
  issue : WinIssue
  compl : WinCompl
  deriving DecidableEq, Repr

/-- Result of an overlapped call: byte count, error, and the comm-timeouts
block programmed into the device (`none` when the call returned before
`SetCommTimeouts` succeeded). -/
structure WinResult where
  n : Nat
  err : Option IOErr
  programmed : Option CommTimeouts
  deriving DecidableEq, Repr

def maxDWORD : Nat := 0xffffffff

/-- Code of `windows.ERROR_IO_PENDING`. -/
def errIOPending : Nat := 997

/-- The Windows `port.Read`.  Mirrors `serial_windows.go` line by line:
the handle check, `GetCommTimeouts`, the `uint32` remaining-time
computation with its `timeout <= 0` test (which on an unsigned value only
catches exactly `0`), the timeout reprogramming, `ReadFile` (where
`ERROR_IO_PENDING` falls through to the wait), `GetOverlappedResult`, and
the final short-transfer check guarded by `!p.readDeadline.IsZero()`. -/
def winRead (p : WinPort) (blen : Nat) (env : WinEnv) : WinResult :=
  if p.handle.isNone then ⟨0, some .portClosed, none⟩
  else
    match env.getTimeoutsErr with
    | some e => ⟨0, some (.native e), none⟩
    | none =>
      let timeout := goUint32 (durMilliseconds (timeSub p.readDeadline env.now))
      if timeout ≤ 0 then ⟨0, some .deadlineExceeded, none⟩
      else
        let ct :=
          if p.readDeadline = 0 then
            { env.ct0 with readInterval := maxDWORD, readMult := maxDWORD, readConst := 0 }
          else
            { env.ct0 with readInterval := 0, readMult := 0, readConst := timeout }
        match env.setTimeoutsErr with
        | some e => ⟨0, some (.native e), none⟩
        | none =>
          match env.issue with
          | .aborted => ⟨0, some .portClosed, some ct⟩
          | .fail e => ⟨0, some (.native e), some ct⟩
          | _ =>
            match env.compl with
            | .aborted => ⟨0, some .portClosed, some ct⟩
            | .fail e => ⟨0, some (.native e), some ct⟩
            | .ok done =>
              if p.readDeadline ≠ 0 ∧ done < blen then ⟨done, some .deadlineExceeded, some ct⟩
              else ⟨done, none, some ct⟩

/-- The Windows `port.Write`.  Same shape as `winRead`, with one difference
faithful to the source: in `Write` the `switch` on the `WriteFile` error has
no `default` case and the `return 0, err` sits after the `switch`, so an
`ERROR_IO_PENDING` status is returned to the caller as a native error
instead of proceeding to the wait. -/
def winWrite (p : WinPort) (blen : Nat) (env : WinEnv) : WinResult :=
  if p.handle.isNone then ⟨0, some .portClosed, none⟩
  else
    match env.getTimeoutsErr with
    | some e => ⟨0, some (.native e), none⟩
    | none =>
      let timeout := goUint32 (durMilliseconds (timeSub p.writeDeadline env.now))
      if timeout ≤ 0 then ⟨0, some .deadlineExceeded, none⟩
      else
        let ct :=
          if p.writeDeadline = 0 then
            { env.ct0 with writeMult := 0, writeConst := 0 }
          else
            { env.ct0 with writeMult := 0, writeConst := timeout }
        match env.setTimeoutsErr with
        | some e => ⟨0, some (.native e), none⟩
        | none =>
          match env.issue with
          | .aborted => ⟨0, some .portClosed, some ct⟩
          | .pending => ⟨0, some (.native errIOPending), some ct⟩
          | .fail e => ⟨0, some (.native e), some ct⟩
          | .ok =>
            match env.compl with
            | .aborted => ⟨0, some .portClosed, some ct⟩
            | .fail e => ⟨0, some (.native e), some ct⟩
            | .ok done =>
              if p.writeDeadline ≠ 0 ∧ done < blen then ⟨done, some .deadlineExceeded, some ct⟩
              else ⟨done, none, some ct⟩

/-- Windows `port.SetReadDeadline`: store the deadline, return `nil`. -/
def winSetReadDeadline (p : WinPort) (t : Int) : WinPort × Option IOErr :=
  ({ p with readDeadline := t }, none)

/-- Windows `port.SetWriteDeadline`: store the deadline, return `nil`. -/
def winSetWriteDeadline (p : WinPort) (t : Int) : WinPort × Option IOErr :=
  ({ p with writeDeadline := t }, none)

/-! ## POSIX polling backend: termios translation

Constant values are those of `golang.org/x/sys/unix` on linux/amd64. -/

def CREAD : Nat := 0x80
def CLOCAL : Nat := 0x800
def CBAUD : Nat := 0x100f
def CSIZE : Nat := 0x30
def CS5 : Nat := 0x0
def CS6 : Nat := 0x10
def CS7 : Nat := 0x20
def CS8 : Nat := 0x30
def CSTOPB : Nat := 0x40
def PARENB : Nat := 0x100
def PARODD : Nat := 0x200

def IGNBRK : Nat := 0x1
def BRKINT : Nat := 0x2
def IGNPAR : Nat := 0x4
def PARMRK : Nat := 0x8
def INPCK : Nat := 0x10
def ISTRIP : Nat := 0x20
def INLCR : Nat := 0x40
def IGNCR : Nat := 0x80
def ICRNL : Nat := 0x100
def IXON : Nat := 0x400
def IXANY : Nat := 0x800
def IXOFF : Nat := 0x1000

def ISIG : Nat := 0x1
def ICANON : Nat := 0x2
def ECHO : Nat := 0x8
def ECHOE : Nat := 0x10
def ECHOK : Nat := 0x20
def ECHONL : Nat := 0x40
def ECHOCTL : Nat := 0x200
def ECHOPRT : Nat := 0x400
def ECHOKE : Nat := 0x800
def OPOST : Nat := 0x1

def VTIME : Nat := 5
def VMIN : Nat := 6

def B19200 : Nat := 0xe

/-- The Linux `unix.Termios` block: the four mode words and the
control-character array `Cc` (modelled as an index-to-value map). -/
structure Termios where
  iflag : Nat
  oflag : Nat
  cflag : Nat
  lflag : Nat
  cc : Nat → Nat

/-- `termiosSetRaw` (`serial_posix.go`).  Faithful to the source, including
its use of the `Lflag`/`Oflag`-valued constants `ICANON`, `ISIG`, `ECHO`
and `OPOST` in operations on `Cflag`. -/
def termiosSetRaw (t : Termios) : Termios :=
  let c := t.cflag ||| CREAD
  let c := c ||| CLOCAL
  let c := andNot c ICANON
  let c := andNot c ISIG
  let c := andNot c ECHO
  let c := andNot c OPOST
  let l := andNot t.lflag ECHOE
  let l := andNot l ECHOK
  let l := andNot l ECHONL
  let l := andNot l ECHOCTL
  let l := andNot l ECHOPRT
  let l := andNot l ECHOKE
  let i := andNot t.iflag (IXON ||| IXOFF ||| IXANY)
  let i := andNot i (IGNBRK ||| BRKINT ||| PARMRK ||| ISTRIP ||| INLCR ||| IGNCR ||| ICRNL)
  { t with cflag := c, lflag := l, iflag := i }

/-- Modelled from the spec: the Linux `baudRates` table (referenced by
`termiosSetBaudrate` but defined in a file of this repository that is not
under `src/`).  Per the spec it is a fixed table of supported rates whose
zero entry selects the documented 19200 default; the native codes are the
Linux `Bnnnn` constants. -/
def baudRatesLinuxTbl : List (Int × Nat) :=
  [(0, B19200),
   (110, 0x3), (300, 0x7), (600, 0x8), (1200, 0x9),
   (2400, 0xb), (4800, 0xc), (9600, 0xd), (19200, B19200),
   (38400, 0xf), (57600, 0x1001), (115200, 0x1002)]

/-- Map lookup in the Linux `baudRates` table. -/
def baudRatesLinux (b : Int) : Option Nat := baudRatesLinuxTbl.lookup b

/-- Modelled from the spec: the Linux `charSizes` table (referenced by
`termiosSetCharSize` but defined in a file of this repository that is not
under `src/`).  Per the spec, data bits 5–8 are supported and the zero
entry selects the documented 8-bit default; codes are `CS5`–`CS8`. -/
def charSizesTbl : List (Int × Nat) :=
  [(0, CS8), (5, CS5), (6, CS6), (7, CS7), (8, CS8)]

/-- Map lookup in the Linux `charSizes` table. -/
def charSizes (x : Int) : Option Nat := charSizesTbl.lookup x

/-- `termiosSetBaudrate`: table lookup; replace the `CBAUD` bits. -/
def termiosSetBaudrate (t : Termios) (baudRate : Int) : Except ConfErr Termios :=
  match baudRatesLinux baudRate with
  | some b => .ok { t with cflag := andNot t.cflag CBAUD ||| b }
  | none => .error ⟨.baudRate, baudRate⟩

/-- `termiosSetCharSize`: table lookup; replace the `CSIZE` bits. -/
def termiosSetCharSize (t : Termios) (charSize : Int) : Except ConfErr Termios :=
  match charSizes charSize with
  | some s => .ok { t with cflag := andNot t.cflag CSIZE ||| s }
  | none => .error ⟨.dataBits, charSize⟩

/-- `termiosSetStopBits`: clear or set `CSTOPB`; `StopBitsNil` means 1. -/
def termiosSetStopBits (t : Termios) (stopBits : Int) : Except ConfErr Termios :=
  if stopBits = stopBits1 ∨ stopBits = stopBitsNil then
    .ok { t with cflag := andNot t.cflag CSTOPB }
  else if stopBits = stopBits2 then .ok { t with cflag := t.cflag ||| CSTOPB }
  else .error ⟨.stopBits, stopBits⟩

/-- `termiosSetParity`: set `PARENB`/`PARODD` in `Cflag` and
`INPCK`/`IGNPAR` in `Iflag`; `ParityNil` means even. -/
def termiosSetParity (t : Termios) (parity : Int) : Except ConfErr Termios :=
  if parity = parityNone then
    .ok { t with cflag := andNot t.cflag PARENB }
  else if parity = parityEven ∨ parity = parityNil then
    .ok { t with cflag := andNot (t.cflag ||| PARENB) PARODD,
                 iflag := andNot (t.iflag ||| INPCK) IGNPAR }
  else if parity = parityOdd then
    .ok { t with cflag := t.cflag ||| PARENB ||| PARODD,
                 iflag := andNot (t.iflag ||| INPCK) IGNPAR }
  else .error ⟨.parity, parity⟩

/-- `termiosSetTimeout`: store `vtime`/`vmin` into the `Cc` array. -/
def termiosSetTimeout (t : Termios) (vtime vmin : Nat) : Termios :=
  { t with cc := fun i => if i = VTIME then vtime else if i = VMIN then vmin else t.cc i }

/-- Tick resolution used by the polling backend (deciseconds). -/
def tickResolution : Nat := 1

/-- The termios translation pipeline of the POSIX `nativeOpen`:
`termiosSetRaw`, then baud rate, character size, parity and stop bits in
source order (each `if err != nil` returning the error immediately), then
`termiosSetTimeout(tty, tickResolution, 0)`. -/
def configureTermios (conf : Config) (t : Termios) : Except ConfErr Termios :=
  match termiosSetBaudrate (termiosSetRaw t) conf.baudRate with
  | .error e => .error e
  | .ok t =>
    match termiosSetCharSize t conf.dataBits with
    | .error e => .error e
    | .ok t =>
      match termiosSetParity t conf.parity with
      | .error e => .error e
      | .ok t =>
        match termiosSetStopBits t conf.stopBits with
        | .error e => .error e
        | .ok t => .ok (termiosSetTimeout t tickResolution 0)

/-- Device-level termios operations performed by the POSIX `nativeOpen`:
`TCGETS`, then — only when every field validated — `TCSETS` with the
translated block.  (The intervening `fcntl` calls touch descriptor flags,
not the control block.) -/
inductive PosixOp where
  | getState
  | setState (t : Termios)

/-- Interaction trace and outcome of the POSIX `nativeOpen` given the
device's current termios block `t0`. -/
def posixOpenTrace (conf : Config) (t0 : Termios) : List PosixOp × Option ConfErr :=
  match configureTermios conf t0 with
  | .ok t' => ([.getState, .setState t'], none)
  | .error e => ([.getState], some e)

/-! ## POSIX polling backend: port, Read, Write, deadlines

The polling `Read`/`Write` loop consults, on every iteration, the closing
flag, the file descriptor, the wall clock, and the outcome of one
non-blocking `unix.Read`/`unix.Write` attempt.  Each iteration's
observations are supplied by one oracle step; a run that exhausts its
oracle without returning models a call that is still looping. -/

/-- The POSIX `port` fields relevant to the deadline functions. -/
structure PosixPort where
  fd : Int
  closing : Bool
  readDeadline : Int
  writeDeadline : Int
  deriving DecidableEq, Repr

/-- `port.readDeadlineExpired` / `port.writeDeadlineExpired`:
`!deadline.IsZero() && time.Now().After(deadline)`. -/
def deadlineExpired (deadline now : Int) : Bool :=
  deadline ≠ 0 && deadline < now

/-- POSIX `port.SetReadDeadline`: store the deadline, return `nil`. -/
def posixSetReadDeadline (p : PosixPort) (t : Int) : PosixPort × Option IOErr :=
  ({ p with readDeadline := t }, none)

/-- POSIX `port.SetWriteDeadline`: store the deadline, return `nil`. -/
def posixSetWriteDeadline (p : PosixPort) (t : Int) : PosixPort × Option IOErr :=
  ({ p with writeDeadline := t }, none)

/-- Outcome of one non-blocking `unix.Read`: `EAGAIN`, another errno (the
syscall wrapper then returns `n = -1` alongside the error), or a chunk of
bytes placed into the buffer slice. -/
inductive PosixIO where
  | again
  | fail (code : Nat)
  | data (chunk : List Nat)
  deriving DecidableEq, Repr

/-- One iteration's observations in the polling read loop: the value of
`p.isClosing() || p.fd == -1`, the wall clock at the deadline check, and
the native read outcome. -/
structure PosixStep where
  closing : Bool
  now : Int
  io : PosixIO
  deriving DecidableEq, Repr

/-- Result of a polling-loop call: returned count (Go `int`, so it may be
negative), error, final buffer contents, and the list of all bytes the
native calls actually transferred (in order). -/
structure PollOut where
  n : Int
  err : Option IOErr
  buf : List Nat
  transferred : List Nat
  deriving DecidableEq, Repr

/-- The loop of POSIX `port.Read`: check closing/fd, check the read
deadline, attempt one `unix.Read(fd, b[read:])`; on `EAGAIN` sleep a tick
and retry, on another error return `n + read` with the syscall's `n = -1`,
on data accumulate and return `nil` once the buffer is full. -/
def posixReadLoop (deadline : Int) (blen : Nat) :
    List PosixStep → Nat → List Nat → List Nat → Option PollOut
  | [], _, _, _ => none
  | st :: rest, read, buf, tr =>
    if st.closing then some ⟨read, some .portClosed, buf, tr⟩
    else if deadlineExpired deadline st.now then
      some ⟨read, some .deadlineExceeded, buf, tr⟩
    else
      match st.io with
      | .again => posixReadLoop deadline blen rest read buf tr
      | .fail code => some ⟨(-1 : Int) + read, some (.native code), buf, tr⟩
      | .data chunk =>
        let c := chunk.take (blen - read)
        let buf' := buf.take read ++ c ++ buf.drop (read + c.length)
        let read' := read + c.length
        if read' = blen then some ⟨read', none, buf', tr ++ c⟩
        else posixReadLoop deadline blen rest read' buf' (tr ++ c)

/-- POSIX `port.Read` on initial buffer contents `b`. -/
def posixRead (deadline : Int) (b : List Nat) (evs : List PosixStep) : Option PollOut :=
  posixReadLoop deadline b.length evs 0 b []

/-- Outcome of one non-blocking `unix.Write`: `EAGAIN`, another errno
(`n = -1`), or acceptance of `n` bytes from the offered slice. -/
inductive PosixWIO where
  | again
  | fail (code : Nat)
  | wrote (n : Nat)
  deriving DecidableEq, Repr

/-- One iteration's observations in the polling write loop. -/
structure PosixWStep where
  closing : Bool
  now : Int
  io : PosixWIO
  deriving DecidableEq, Repr

/-- Result of the polling write loop: returned count and error.  The bytes
transferred are by construction the first `written` bytes of `b`. -/
structure PollWOut where
  n : Int
  err : Option IOErr
  deriving DecidableEq, Repr

/-- The loop of POSIX `port.Write`; the native call writes from
`b[written:]`, so it accepts at most `blen - written` bytes. -/
def posixWriteLoop (deadline : Int) (blen : Nat) :
    List PosixWStep → Nat → Option PollWOut
  | [], _ => none
  | st :: rest, written =>
    if st.closing then some ⟨written, some .portClosed⟩
    else if deadlineExpired deadline st.now then
      some ⟨written, some .deadlineExceeded⟩
    else
      match st.io with
      | .again => posixWriteLoop deadline blen rest written
      | .fail code => some ⟨(-1 : Int) + written, some (.native code)⟩
      | .wrote k =>
        let written' := written + min k (blen - written)
        if written' = blen then some ⟨written', none⟩
        else posixWriteLoop deadline blen rest written'

/-- POSIX `port.Write` of a buffer of length `blen`. -/
def posixWrite (deadline : Int) (blen : Nat) (evs : List PosixWStep) : Option PollWOut :=
  posixWriteLoop deadline blen evs 0

/-! ## Close concurrency machines (Windows backend)

The Windows `port.Close` (`serial_windows.go` lines 318–335) performs, with
no lock acquisition of any kind:

    if p.handle == windows.InvalidHandle { return nil }   // step 0
    cancelErr := windows.CancelIoEx(p.handle, nil)        // step 1
    if err := windows.CloseHandle(p.handle); err != nil { // step 2
        return err }
    p.handle = windows.InvalidHandle                      // step 3
    if cancelErr != windows.ERROR_NOT_FOUND {             // step 4
        return cancelErr }
    return nil

Each numbered source line is one atomic step of the machines below; a
schedule picks which thread steps next.  `handle = -1` models
`windows.InvalidHandle`; a port with no pending I/O makes `CancelIoEx`
return `ERROR_NOT_FOUND`, which step 4 converts to a `nil` return. -/

/-- Code of `windows.ERROR_INVALID_HANDLE` (returned by `CloseHandle` on an
already-invalid handle). -/
def errInvalidHandle : Nat := 6

/-- State of two threads concurrently executing the Windows `Close` on one
port: the shared handle field, how many times `CloseHandle` was invoked on
the real (still-valid) handle, each thread's program counter, and each
thread's return value once it finished (`some none` = returned `nil`,
`some (some e)` = returned error code `e`). -/
structure CloseCloseState where
  handle : Int
  realCloses : Nat
  pcA : Nat
  pcB : Nat
  retA : Option (Option Nat)
  retB : Option (Option Nat)
  deriving DecidableEq, Repr

/-- Initial state: a freshly opened port with valid handle `h`. -/
def ccInit (h : Int) : CloseCloseState :=
  ⟨h, 0, 0, 0, none, none⟩

/-- One atomic step of the Windows `Close` body for a thread at `pc`,
acting on the shared `handle`/`realCloses`; returns the updated shared
fields, the new `pc`, and the return value if the thread finished. -/
def winCloseStep (handle : Int) (realCloses : Nat) (pc : Nat) :
    Int × Nat × Nat × Option (Option Nat) :=
  match pc with
  | 0 => if handle = -1 then (handle, realCloses, 5, some none)
         else (handle, realCloses, 1, none)
  | 1 => (handle, realCloses, 2, none)
  | 2 => if handle = -1 then (handle, realCloses, 5, some (some errInvalidHandle))
         else (handle, realCloses + 1, 3, none)
  | 3 => (-1, realCloses, 4, none)
  | _ => (handle, realCloses, 5, some none)

/-- Advance the chosen thread (`false` = A, `true` = B) by one step;
finished threads do not move. -/
def ccStep (s : CloseCloseState) (t : Bool) : CloseCloseState :=
  if t then
    if s.retB.isSome then s
    else
      let r := winCloseStep s.handle s.realCloses s.pcB
      { s with handle := r.1, realCloses := r.2.1, pcB := r.2.2.1, retB := r.2.2.2 }
  else
    if s.retA.isSome then s
    else
      let r := winCloseStep s.handle s.realCloses s.pcA
      { s with handle := r.1, realCloses := r.2.1, pcA := r.2.2.1, retA := r.2.2.2 }

/-- Run the two-thread close machine under a schedule. -/
def ccRun (h : Int) (sched : List Bool) : CloseCloseState :=
  sched.foldl ccStep (ccInit h)

/-! The Windows `port.Read` racing `port.Close`.  The reader's steps
(`serial_windows.go` lines 198–258): acquire the shared lock
(`p.mut.RLock()`), check the handle, program timeouts and issue the
overlapped `ReadFile`, block in `GetOverlappedResult` (with no data
arriving and no deadline, this wait completes only through cancellation,
returning `ERROR_OPERATION_ABORTED`), return `ErrPortClosed`, release the
shared lock.  The closer runs the five `Close` steps above — none of which
touches the lock. -/

/-- State of one reader and one closer: shared handle, shared-lock holder
count, whether `CancelIoEx` has fired, and whether `CloseHandle` released
the real handle at a moment the reader still held the shared lock. -/
structure ReadCloseState where
  handle : Int
  readers : Nat
  cancelled : Bool
  releasedWhileReader : Bool
  pcR : Nat
  pcC : Nat
  retR : Option IOErr
  retC : Option (Option Nat)
  deriving DecidableEq, Repr

def rcInit (h : Int) : ReadCloseState :=
  ⟨h, 0, false, false, 0, 0, none, none⟩

/-- One atomic step of the reader thread. -/
def rcReaderStep (s : ReadCloseState) : ReadCloseState :=
  match s.pcR with
  | 0 => { s with readers := s.readers + 1, pcR := 1 }
  | 1 => if s.handle = -1 then { s with retR := some .portClosed, pcR := 4 }
         else { s with pcR := 2 }
  | 2 => { s with pcR := 3 }
  | 3 => if s.cancelled then { s with retR := some .portClosed, pcR := 4 }
         else s
  | 4 => { s with readers := s.readers - 1, pcR := 5 }
  | _ => s

/-- One atomic step of the closer thread (the five `Close` steps; step 2
additionally records whether a reader held the shared lock at the moment
the real handle was closed). -/
def rcCloserStep (s : ReadCloseState) : ReadCloseState :=
  match s.pcC with
  | 0 => if s.handle = -1 then { s with retC := some none, pcC := 5 }
         else { s with pcC := 1 }
  | 1 => { s with cancelled := true, pcC := 2 }
  | 2 => if s.handle = -1 then { s with retC := some (some errInvalidHandle), pcC := 5 }
         else { s with releasedWhileReader := s.releasedWhileReader || decide (0 < s.readers),
                       pcC := 3 }
  | 3 => { s with handle := -1, pcC := 4 }
  | 4 => { s with retC := some none, pcC := 5 }
  | _ => s

/-- Advance reader (`false`) or closer (`true`) by one step. -/
def rcStep (s : ReadCloseState) (t : Bool) : ReadCloseState :=
  if t then rcCloserStep s else rcReaderStep s

/-- Run the reader/closer machine under a schedule. -/
def rcRun (h : Int) (sched : List Bool) : ReadCloseState :=
  sched.foldl rcStep (rcInit h)

/-! ## Bit-manipulation helper lemmas -/

theorem testBit_andNot (a b i : Nat) :
    (andNot a b).testBit i = (a.testBit i && !(b.testBit i)) := by
  simp only [andNot, Nat.testBit_xor, Nat.testBit_land]
  cases a.testBit i <;> cases b.testBit i <;> rfl

theorem testBit_subset_false {c m : Nat} (hcm : c &&& m = c) {i : Nat}
    (h : m.testBit i = false) : c.testBit i = false := by
  have h2 := congrArg (fun x => Nat.testBit x i) hcm
  simpa [Nat.testBit_land, h] using h2.symm

theorem land_lor_right (a b m : Nat) :
    (a ||| b) &&& m = (a &&& m) ||| (b &&& m) := by
  apply Nat.eq_of_testBit_eq; intro i
  simp only [Nat.testBit_land, Nat.testBit_lor]
  cases a.testBit i <;> cases b.testBit i <;> cases m.testBit i <;> rfl

theorem andNot_land_self (a m : Nat) : (andNot a m) &&& m = 0 := by
  apply Nat.eq_of_testBit_eq; intro i
  simp only [Nat.testBit_land, testBit_andNot, Nat.zero_testBit]
  cases a.testBit i <;> cases m.testBit i <;> rfl

theorem lor_land_of_disjoint {b m : Nat} (h : b &&& m = 0) (a : Nat) :
    (a ||| b) &&& m = a &&& m := by
  apply Nat.eq_of_testBit_eq; intro i
  have hb : (b &&& m).testBit i = false := by simp [h]
  simp only [Nat.testBit_land] at hb
  simp only [Nat.testBit_land, Nat.testBit_lor]
  cases ha : a.testBit i <;> cases hbb : b.testBit i <;> cases hm : m.testBit i <;>
    simp_all

theorem andNot_land_of_disjoint {b m : Nat} (h : b &&& m = 0) (a : Nat) :
    (andNot a b) &&& m = a &&& m := by
  apply Nat.eq_of_testBit_eq; intro i
  have hb : (b &&& m).testBit i = false := by simp [h]
  simp only [Nat.testBit_land] at hb
  simp only [Nat.testBit_land, testBit_andNot]
  cases ha : a.testBit i <;> cases hbb : b.testBit i <;> cases hm : m.testBit i <;>
    simp_all

theorem lor_land_self (a b : Nat) : (a ||| b) &&& b = b := by
  apply Nat.eq_of_testBit_eq; intro i
  simp only [Nat.testBit_land, Nat.testBit_lor]
  cases a.testBit i <;> cases b.testBit i <;> rfl

/-! ## Claim theorems -/

/-- C10: `SetReadDeadline` and `SetWriteDeadline` store the deadline and
return `nil` for every time value `t`, including the zero value and past
times, on both backends. -/
theorem setDeadline_never_fails :
    (∀ (p : PosixPort) (t : Int),
        (posixSetReadDeadline p t).2 = none ∧ (posixSetWriteDeadline p t).2 = none) ∧
    (∀ (p : WinPort) (t : Int),
        (winSetReadDeadline p t).2 = none ∧ (winSetWriteDeadline p t).2 = none) :=
  ⟨fun _ _ => ⟨rfl, rfl⟩, fun _ _ => ⟨rfl, rfl⟩⟩

/-- C1 (code bug, evaluated at the failing input): a read deadline in the
past.  On the polling backend the call returns `(0, DeadlineExceeded)`
immediately, as the claim states (first conjunct: deadline 5, clock 10).
On the overlapped backend a deadline 10 seconds in the past gives a
remaining time of `-10000` ms, which the `uint32` conversion turns into
`4294957296`; the guard `timeout <= 0` — vacuous on an unsigned value
unless it is exactly `0` — does not fire, so instead of returning
`(0, DeadlineExceeded)` immediately the call programs a
`ReadTotalTimeoutConstant` of `4294957296` ms (about 49.7 days), issues the
read, and here completes normally with `(4, nil)` (second conjunct). -/
theorem pastDeadline_read_result :
    posixRead 5 [0, 0] [⟨false, 10, .again⟩] =
      some ⟨0, some .deadlineExceeded, [0, 0], []⟩ ∧
    winRead ⟨some 7, 9223372026854775808, 0⟩ 4
        ⟨9223372036854775808, ⟨0, 0, 0, 0, 0⟩, none, none, .ok, .ok 4⟩ =
      ⟨4, none, some ⟨0, 0, 4294957296, 0, 0⟩⟩ :=
  ⟨by decide, by decide⟩

/-- C6 (code bug, evaluated at the failing input): two threads running the
Windows `Close` concurrently, interleaved check-by-check (schedule
A0 B0 A1 B1 A2 B2 A3 A4 B3 B4).  Both threads pass the `InvalidHandle`
test before either invalidates the field, and both invoke `CloseHandle` on
the still-valid native handle: the handle is released twice, not exactly
once. -/
theorem concurrent_close_double_release :
    (ccRun 7 [false, true, false, true, false, true, false, false, true, true]).realCloses = 2 ∧
    (ccRun 7 [false, true, false, true, false, true, false, false, true, true]).retA = some none ∧
    (ccRun 7 [false, true, false, true, false, true, false, false, true, true]).retB = some none := by
  decide

/-- C9 (code bug, evaluated at the failing input): the Windows `Close`
performs no lock acquisition.  Schedule: the reader acquires the shared
lock, checks the handle and blocks in `GetOverlappedResult`; the closer
then runs to completion — `CancelIoEx`, `CloseHandle`, invalidate — while
the reader still holds the shared lock.  The handle is released while a
`Read` is in flight under the shared lock, contradicting the claim that it
is released only under the exclusive lock. -/
theorem close_releases_handle_while_read_holds_lock :
    (rcRun 7 [false, false, false, true, true, true, true, true, false, false]).releasedWhileReader
      = true ∧
    (rcRun 7 [false, false, false, true, true, true, true, true, false, false]).retR
      = some .portClosed := by
  decide

theorem deadlineExpired_zero (now : Int) : deadlineExpired 0 now = false := by
  simp [deadlineExpired]

theorem posixReadLoop_zero_deadline (blen : Nat) :
    ∀ (evs : List PosixStep) (read : Nat) (buf tr : List Nat) (out : PollOut),
      posixReadLoop 0 blen evs read buf tr = some out →
      out.err ≠ some .deadlineExceeded := by
  intro evs
  induction evs with
  | nil =>
    intro read buf tr out h
    simp [posixReadLoop] at h
  | cons st rest ih =>
    intro read buf tr out h
    rw [posixReadLoop] at h
    split at h
    · cases h; simp
    · split at h
      · rename_i hdl
        rw [deadlineExpired_zero] at hdl
        cases hdl
      · split at h
        · exact ih _ _ _ _ h
        · cases h; simp
        · dsimp only at h
          split at h
          · cases h; simp
          · exact ih _ _ _ _ h

theorem posixWriteLoop_zero_deadline (blen : Nat) :
    ∀ (evs : List PosixWStep) (written : Nat) (out : PollWOut),
      posixWriteLoop 0 blen evs written = some out →
      out.err ≠ some .deadlineExceeded := by
  intro evs
  induction evs with
  | nil =>
    intro written out h
    simp [posixWriteLoop] at h
  | cons st rest ih =>
    intro written out h
    rw [posixWriteLoop] at h
    split at h
    · cases h; simp
    · split at h
      · rename_i hdl
        rw [deadlineExpired_zero] at hdl
        cases hdl
      · split at h
        · exact ih _ _ h
        · cases h; simp
        · dsimp only at h
          split at h
          · cases h; simp
          · exact ih _ _ h

theorem timeSub_zero_saturates {now : Int} (hnow : maxDuration < now) :
    timeSub 0 now = minDuration := by
  have h1 : (0 : Int) - now ≤ maxDuration := by
    simp only [maxDuration] at *; omega
  have h2 : (0 : Int) - now ≤ minDuration := by
    simp only [maxDuration, minDuration] at *; omega
  rw [timeSub, min_eq_right h1, max_eq_left h2]

theorem goUint32_minDuration_ms :
    goUint32 (durMilliseconds minDuration) = 2217714954 := by decide

theorem winRead_zero_deadline (h : Option Nat) (wd : Int) (blen : Nat)
    (env : WinEnv) (hnow : maxDuration < env.now) :
    (winRead ⟨h, 0, wd⟩ blen env).err ≠ some .deadlineExceeded := by
  rw [winRead]
  simp only [timeSub_zero_saturates hnow, goUint32_minDuration_ms]
  cases h with
  | none => simp
  | some v =>
    simp only [Option.isNone_some, if_false, Bool.false_eq_true]
    cases env.getTimeoutsErr with
    | some e => simp
    | none =>
      simp only [reduceIte]
      cases env.setTimeoutsErr with
      | some e => simp
      | none =>
        cases env.issue with
        | aborted => simp
        | fail e => simp
        | ok =>
          cases env.compl with
          | aborted => simp
          | fail e => simp
          | ok done => simp
        | pending =>
          cases env.compl with
          | aborted => simp
          | fail e => simp
          | ok done => simp

theorem winWrite_zero_deadline (h : Option Nat) (rd : Int) (blen : Nat)
    (env : WinEnv) (hnow : maxDuration < env.now) :
    (winWrite ⟨h, rd, 0⟩ blen env).err ≠ some .deadlineExceeded := by
  rw [winWrite]
  simp only [timeSub_zero_saturates hnow, goUint32_minDuration_ms]
  cases h with
  | none => simp
  | some v =>
    simp only [Option.isNone_some, if_false, Bool.false_eq_true]
    cases env.getTimeoutsErr with
    | some e => simp
    | none =>
      simp only [reduceIte]
      cases env.setTimeoutsErr with
      | some e => simp
      | none =>
        cases env.issue with
        | aborted => simp
        | fail e => simp
        | pending => simp
        | ok =>
          cases env.compl with
          | aborted => simp
          | fail e => simp
          | ok done => simp

/-- C3: a zero deadline means no deadline.  A `Read` (resp. `Write`) on a
port whose read (resp. write) deadline is the zero time value never
returns `DeadlineExceeded`: on the polling backend the expiry check
requires a non-zero deadline, and on the overlapped backend (for any wall
clock later than `maxDuration` nanoseconds after the zero time, i.e. any
clock after roughly year 293) the saturated `uint32` remaining-time value
is the non-zero `2217714954` and the final short-transfer check is guarded
by `!IsZero()`. -/
theorem zero_deadline_never_deadlineExceeded :
    (∀ (b : List Nat) (evs : List PosixStep) (out : PollOut),
        posixRead 0 b evs = some out → out.err ≠ some .deadlineExceeded) ∧
    (∀ (blen : Nat) (evs : List PosixWStep) (out : PollWOut),
        posixWrite 0 blen evs = some out → out.err ≠ some .deadlineExceeded) ∧
    (∀ (h : Option Nat) (wd : Int) (blen : Nat) (env : WinEnv),
        maxDuration < env.now →
        (winRead ⟨h, 0, wd⟩ blen env).err ≠ some .deadlineExceeded) ∧
    (∀ (h : Option Nat) (rd : Int) (blen : Nat) (env : WinEnv),
        maxDuration < env.now →
        (winWrite ⟨h, rd, 0⟩ blen env).err ≠ some .deadlineExceeded) :=
  ⟨fun b evs out h => posixReadLoop_zero_deadline b.length evs 0 b [] out h,
   fun blen evs out h => posixWriteLoop_zero_deadline blen evs 0 out h,
   fun h wd blen env hnow => winRead_zero_deadline h wd blen env hnow,
   fun h rd blen env hnow => winWrite_zero_deadline h rd blen env hnow⟩

/-- C3 witness: the hypotheses of `zero_deadline_never_deadlineExceeded`
hold at concrete inputs — a polling read that hits a native error, and an
overlapped read at a present-day clock value — and the conclusion follows
by applying the theorem. -/
theorem zero_deadline_never_deadlineExceeded_witness :
    ((⟨-1, some (.native 5), [0], []⟩ : PollOut).err ≠ some .deadlineExceeded) ∧
    maxDuration < (9223372036854775808 : Int) ∧
    (winRead ⟨some 7, 0, 3⟩ 1
        ⟨9223372036854775808, ⟨0, 0, 0, 0, 0⟩, none, none, .ok, .ok 1⟩).err
      ≠ some .deadlineExceeded :=
  ⟨zero_deadline_never_deadlineExceeded.1 [0] [⟨false, 100, .fail 5⟩] _ (by decide),
   by decide,
   zero_deadline_never_deadlineExceeded.2.2.1 (some 7) 3 1 _ (by decide)⟩

theorem posixReadLoop_nil_full (blen : Nat) (deadline : Int) :
    ∀ (evs : List PosixStep) (read : Nat) (buf tr : List Nat) (out : PollOut),
      posixReadLoop deadline blen evs read buf tr = some out →
      out.err = none → out.n = blen := by
  intro evs
  induction evs with
  | nil =>
    intro read buf tr out h
    simp [posixReadLoop] at h
  | cons st rest ih =>
    intro read buf tr out h hnil
    rw [posixReadLoop] at h
    split at h
    · cases h; simp at hnil
    · split at h
      · cases h; simp at hnil
      · split at h
        · exact ih _ _ _ _ h hnil
        · cases h; simp at hnil
        · dsimp only at h
          split at h
          · rename_i hfull
            cases h
            simp only [List.length_take] at hfull ⊢
            simp
            omega
          · exact ih _ _ _ _ h hnil

theorem posixWriteLoop_nil_full (blen : Nat) (deadline : Int) :
    ∀ (evs : List PosixWStep) (written : Nat) (out : PollWOut),
      posixWriteLoop deadline blen evs written = some out →
      out.err = none → out.n = blen := by
  intro evs
  induction evs with
  | nil =>
    intro written out h
    simp [posixWriteLoop] at h
  | cons st rest ih =>
    intro written out h hnil
    rw [posixWriteLoop] at h
    split at h
    · cases h; simp at hnil
    · split at h
      · cases h; simp at hnil
      · split at h
        · exact ih _ _ h hnil
        · cases h; simp at hnil
        · dsimp only at h
          split at h
          · rename_i hfull
            cases h
            simp
            omega
          · exact ih _ _ h hnil

theorem winRead_nil_full (p : WinPort) (blen : Nat) (env : WinEnv) (done : Nat)
    (hrd : p.readDeadline ≠ 0) (hc : env.compl = .ok done) (hle : done ≤ blen) :
    (winRead p blen env).err = none → (winRead p blen env).n = blen := by
  intro hnil
  obtain ⟨h, rd, wd⟩ := p
  simp only [ne_eq] at hrd
  cases h with
  | none => simp [winRead] at hnil
  | some v =>
    cases hg : env.getTimeoutsErr with
    | some e => simp [winRead, hg] at hnil
    | none =>
      by_cases ht : goUint32 (durMilliseconds (timeSub rd env.now)) ≤ 0
      · simp [winRead, hg, ht] at hnil
      · cases hs : env.setTimeoutsErr with
        | some e => simp [winRead, hg, hs, ht] at hnil
        | none =>
          cases hi : env.issue with
          | aborted => simp [winRead, hg, hs, ht, hi] at hnil
          | fail e => simp [winRead, hg, hs, ht, hi] at hnil
          | ok =>
            by_cases hlt : done < blen
            · simp [winRead, hg, hs, ht, hi, hc, hrd, hlt] at hnil
            · simp [winRead, hg, hs, ht, hi, hc, hlt]
              omega
          | pending =>
            by_cases hlt : done < blen
            · simp [winRead, hg, hs, ht, hi, hc, hrd, hlt] at hnil
            · simp [winRead, hg, hs, ht, hi, hc, hlt]
              omega

theorem winWrite_nil_full (p : WinPort) (blen : Nat) (env : WinEnv) (done : Nat)
    (hwd : p.writeDeadline ≠ 0) (hc : env.compl = .ok done) (hle : done ≤ blen) :
    (winWrite p blen env).err = none → (winWrite p blen env).n = blen := by
  intro hnil
  obtain ⟨h, rd, wd⟩ := p
  simp only [ne_eq] at hwd
  cases h with
  | none => simp [winWrite] at hnil
  | some v =>
    cases hg : env.getTimeoutsErr with
    | some e => simp [winWrite, hg] at hnil
    | none =>
      by_cases ht : goUint32 (durMilliseconds (timeSub wd env.now)) ≤ 0
      · simp [winWrite, hg, ht] at hnil
      · cases hs : env.setTimeoutsErr with
        | some e => simp [winWrite, hg, hs, ht] at hnil
        | none =>
          cases hi : env.issue with
          | aborted => simp [winWrite, hg, hs, ht, hi] at hnil
          | pending => simp [winWrite, hg, hs, ht, hi] at hnil
          | fail e => simp [winWrite, hg, hs, ht, hi] at hnil
          | ok =>
            by_cases hlt : done < blen
            · simp [winWrite, hg, hs, ht, hi, hc, hwd, hlt] at hnil
            · simp [winWrite, hg, hs, ht, hi, hc, hlt]
              omega

/-- C4 counterexample: on the overlapped backend with a zero read deadline,
the short-transfer check `!p.readDeadline.IsZero() && int(done) < len(b)`
is skipped, so an OS completion of `0` bytes against a 1-byte request is
returned as `(0, nil)` — a `nil`-error `Read` whose count is not
`len(buffer)`. -/
theorem read_nil_short_transfer_cex :
    (winRead ⟨some 7, 0, 0⟩ 1
        ⟨9223372036854775808, ⟨0, 0, 0, 0, 0⟩, none, none, .ok, .ok 0⟩).err = none ∧
    (winRead ⟨some 7, 0, 0⟩ 1
        ⟨9223372036854775808, ⟨0, 0, 0, 0, 0⟩, none, none, .ok, .ok 0⟩).n ≠ 1 := by
  decide

/-- C4 (amended): a `Read`/`Write` that returns a `nil` error returns
`n = len(buffer)` on the polling backend always, and on the overlapped
backend whenever the relevant deadline is non-zero (and the OS completion
count does not exceed the request); with a zero deadline the overlapped
backend returns whatever count the OS completion reports, with a `nil`
error, even when short. -/
theorem nil_error_means_full_completion :
    (∀ (deadline : Int) (b : List Nat) (evs : List PosixStep) (out : PollOut),
        posixRead deadline b evs = some out → out.err = none → out.n = b.length) ∧
    (∀ (deadline : Int) (blen : Nat) (evs : List PosixWStep) (out : PollWOut),
        posixWrite deadline blen evs = some out → out.err = none → out.n = blen) ∧
    (∀ (p : WinPort) (blen : Nat) (env : WinEnv) (done : Nat),
        p.readDeadline ≠ 0 → env.compl = .ok done → done ≤ blen →
        (winRead p blen env).err = none → (winRead p blen env).n = blen) ∧
    (∀ (p : WinPort) (blen : Nat) (env : WinEnv) (done : Nat),
        p.writeDeadline ≠ 0 → env.compl = .ok done → done ≤ blen →
        (winWrite p blen env).err = none → (winWrite p blen env).n = blen) :=
  ⟨fun deadline b evs out h => posixReadLoop_nil_full b.length deadline evs 0 b [] out h,
   fun deadline blen evs out h => posixWriteLoop_nil_full blen deadline evs 0 out h,
   fun p blen env done h1 h2 h3 => winRead_nil_full p blen env done h1 h2 h3,
   fun p blen env done h1 h2 h3 => winWrite_nil_full p blen env done h1 h2 h3⟩

/-- C4 witness: the hypotheses of `nil_error_means_full_completion` hold at
concrete inputs — a polling read that fills a 2-byte buffer in one chunk,
and an overlapped read with a future deadline and a full 2-byte completion
— and the conclusions follow by applying the theorem. -/
theorem nil_error_means_full_completion_witness :
    ((⟨2, none, [3, 4], [3, 4]⟩ : PollOut).n = ([9, 9] : List Nat).length) ∧
    (winRead ⟨some 7, 1000000, 0⟩ 2
        ⟨0, ⟨0, 0, 0, 0, 0⟩, none, none, .ok, .ok 2⟩).n = 2 :=
  ⟨nil_error_means_full_completion.1 0 [9, 9] [⟨false, 1, .data [3, 4]⟩]
      ⟨2, none, [3, 4], [3, 4]⟩ (by decide) rfl,
   nil_error_means_full_completion.2.2.1 ⟨some 7, 1000000, 0⟩ 2
      ⟨0, ⟨0, 0, 0, 0, 0⟩, none, none, .ok, .ok 2⟩ 2
      (by decide) rfl (by decide) (by decide)⟩

theorem take_append_chunk (A c D : List Nat) :
    (A ++ c ++ D).take (A.length + c.length) = A ++ c := by
  rw [List.append_assoc, List.take_append_eq_append_take]
  have h1 : A.take (A.length + c.length) = A := by
    apply List.take_of_length_le; omega
  have h2 : A.length + c.length - A.length = c.length := by omega
  rw [h1, h2, List.take_append_eq_append_take]
  simp

theorem posixReadLoop_invariant (deadline : Int) (blen : Nat) :
    ∀ (evs : List PosixStep) (read : Nat) (buf tr : List Nat) (out : PollOut),
      buf.length = blen → read = tr.length → read ≤ blen → buf.take read = tr →
      posixReadLoop deadline blen evs read buf tr = some out →
      out.buf.length = blen ∧
      ((out.err = none ∨ out.err = some .portClosed ∨ out.err = some .deadlineExceeded) →
        out.n = out.transferred.length ∧ 0 ≤ out.n ∧ out.n ≤ blen ∧
        out.buf.take out.transferred.length = out.transferred) ∧
      (∀ code, out.err = some (.native code) →
        out.n = (out.transferred.length : Int) - 1) := by
  intro evs
  induction evs with
  | nil =>
    intro read buf tr out _ _ _ _ h
    simp [posixReadLoop] at h
  | cons st rest ih =>
    intro read buf tr out hbuf hread hle htake h
    rw [posixReadLoop] at h
    split at h
    · cases h
      refine ⟨hbuf, fun _ => ?_, fun code hcode => by simp at hcode⟩
      dsimp only
      exact ⟨by exact_mod_cast hread, by omega, by omega, hread ▸ htake⟩
    · split at h
      · cases h
        refine ⟨hbuf, fun _ => ?_, fun code hcode => by simp at hcode⟩
        dsimp only
        exact ⟨by exact_mod_cast hread, by omega, by omega, hread ▸ htake⟩
      · split at h
        · exact ih _ _ _ _ hbuf hread hle htake h
        · cases h
          refine ⟨hbuf, fun hdisj => ?_, fun code hcode => ?_⟩
          · rcases hdisj with hd | hd | hd <;> simp at hd
          · dsimp only
            omega
        · rename_i a heq
          dsimp only at h
          have hclen : (List.take (blen - read) a).length ≤ blen - read := by
            simp [List.length_take]
          have hA : (List.take read buf).length = read := by
            simp [List.length_take]; omega
          have hbuflen :
              (List.take read buf ++ List.take (blen - read) a ++
                List.drop (read + (List.take (blen - read) a).length) buf).length = blen := by
            simp [List.length_append, List.length_take, List.length_drop]
            omega
          have htake' :
              (List.take read buf ++ List.take (blen - read) a ++
                List.drop (read + (List.take (blen - read) a).length) buf).take
                  (read + (List.take (blen - read) a).length) =
                tr ++ List.take (blen - read) a := by
            have hch := take_append_chunk (List.take read buf) (List.take (blen - read) a)
              (List.drop (read + (List.take (blen - read) a).length) buf)
            rw [hA] at hch
            rw [hch, htake]
          split at h
          · rename_i hfull
            cases h
            refine ⟨hbuflen, fun _ => ?_, fun code hcode => by simp at hcode⟩
            dsimp only
            refine ⟨?_, by omega, ?_, ?_⟩
            · simp only [List.length_append]
              omega
            · omega
            · have hlen2 : (tr ++ List.take (blen - read) a).length =
                  read + (List.take (blen - read) a).length := by
                simp only [List.length_append]
                omega
              rw [hlen2, htake']
          · rename_i hnfull
            exact ih _ _ _ _ hbuflen (by simp only [List.length_append]; omega)
              (by omega) htake' h

theorem posixWriteLoop_bounds (deadline : Int) (blen : Nat) :
    ∀ (evs : List PosixWStep) (written : Nat) (out : PollWOut),
      written ≤ blen →
      posixWriteLoop deadline blen evs written = some out →
      ((out.err = none ∨ out.err = some .portClosed ∨ out.err = some .deadlineExceeded) →
        0 ≤ out.n ∧ out.n ≤ blen) := by
  intro evs
  induction evs with
  | nil =>
    intro written out _ h
    simp [posixWriteLoop] at h
  | cons st rest ih =>
    intro written out hle h
    rw [posixWriteLoop] at h
    split at h
    · cases h
      intro _
      dsimp only
      exact ⟨by omega, by omega⟩
    · split at h
      · cases h
        intro _
        dsimp only
        exact ⟨by omega, by omega⟩
      · split at h
        · exact ih _ _ hle h
        · cases h
          intro hdisj
          rcases hdisj with hd | hd | hd <;> simp at hd
        · dsimp only at h
          split at h
          · rename_i hfull
            cases h
            intro _
            dsimp only
            exact ⟨by omega, by omega⟩
          · exact ih _ _ (by omega) h

/-- C5 counterexample: on the polling backend a native error on the first
iteration is returned through `return n + read, err`, where the syscall
wrapper's `n` is `-1`: the `Read` returns `(-1, EIO)`, violating
`0 ≤ n ≤ len(buffer)`. -/
theorem partial_result_cex :
    posixRead 0 [0, 0, 0, 0] [⟨false, 0, .fail 5⟩] =
      some ⟨-1, some (.native 5), [0, 0, 0, 0], []⟩ ∧ ¬((0 : Int) ≤ -1) := by
  decide

/-- C5 (amended): for every polling-backend `Read` returning `nil`,
`PortClosed` or `DeadlineExceeded`, the count satisfies
`0 ≤ n ≤ len(buffer)`, equals the number of bytes actually transferred,
and the first `n` bytes of the buffer are exactly the transferred bytes
(the write direction returns `0 ≤ n ≤ len(buffer)`, its transferred bytes
being the first `n` bytes of the input by construction).  A native-error
return instead carries `n` = accumulated + the native call's return value,
which on POSIX errors is `-1`, i.e. `n` = transferred − 1, possibly `-1`. -/
theorem partial_result_invariant :
    (∀ (deadline : Int) (b : List Nat) (evs : List PosixStep) (out : PollOut),
        posixRead deadline b evs = some out →
        out.buf.length = b.length ∧
        ((out.err = none ∨ out.err = some .portClosed ∨ out.err = some .deadlineExceeded) →
          out.n = out.transferred.length ∧ 0 ≤ out.n ∧ out.n ≤ b.length ∧
          out.buf.take out.transferred.length = out.transferred) ∧
        (∀ code, out.err = some (.native code) →
          out.n = (out.transferred.length : Int) - 1)) ∧
    (∀ (deadline : Int) (blen : Nat) (evs : List PosixWStep) (out : PollWOut),
        posixWrite deadline blen evs = some out →
        ((out.err = none ∨ out.err = some .portClosed ∨ out.err = some .deadlineExceeded) →
          0 ≤ out.n ∧ out.n ≤ blen)) :=
  ⟨fun deadline b evs out h =>
    posixReadLoop_invariant deadline b.length evs 0 b [] out rfl rfl (Nat.zero_le _)
      (List.take_zero b) h,
   fun deadline blen evs out h =>
    posixWriteLoop_bounds deadline blen evs 0 out (Nat.zero_le _) h⟩

/-- C5 witness: a 2-byte read that transfers one byte and then hits its
deadline; applying `partial_result_invariant` at this input yields the
count/bounds/prefix facts for the `DeadlineExceeded` return. -/
theorem partial_result_invariant_witness :
    (⟨1, some .deadlineExceeded, [3, 9], [3]⟩ : PollOut).n =
      (⟨1, some .deadlineExceeded, [3, 9], [3]⟩ : PollOut).transferred.length ∧
    0 ≤ (⟨1, some .deadlineExceeded, [3, 9], [3]⟩ : PollOut).n ∧
    (⟨1, some .deadlineExceeded, [3, 9], [3]⟩ : PollOut).n ≤ ([9, 9] : List Nat).length ∧
    (⟨1, some .deadlineExceeded, [3, 9], [3]⟩ : PollOut).buf.take
        (⟨1, some .deadlineExceeded, [3, 9], [3]⟩ : PollOut).transferred.length =
      (⟨1, some .deadlineExceeded, [3, 9], [3]⟩ : PollOut).transferred :=
  (partial_result_invariant.1 5 [9, 9] [⟨false, 1, .data [3]⟩, ⟨false, 10, .again⟩]
      ⟨1, some .deadlineExceeded, [3, 9], [3]⟩ (by decide)).2.1
    (Or.inr (Or.inr rfl))

/-! ## C2: which parts of the control block the translation touches -/

/-- The `Cflag` positions covered by the claim's documented fields on the
POSIX side: receiver enable and modem-control-ignore (binary-mode enable),
baud bits, character-size bits, stop bit, parity bits.  The source's stray
`Cflag` clears with the `Lflag`/`Oflag` constants `ICANON|ISIG|ECHO|OPOST`
(value `0xb`) land inside the `CBAUD` region and are overwritten by the
baud-rate write. -/
def cflagDocMask : Nat :=
  CREAD ||| CLOCAL ||| CBAUD ||| CSIZE ||| CSTOPB ||| PARENB ||| PARODD

/-- The `Iflag` positions covered by the documented fields: software
flow-control bits and special-handling bits, plus the parity-check bits. -/
def iflagDocMask : Nat :=
  IXON ||| IXOFF ||| IXANY ||| IGNBRK ||| BRKINT ||| PARMRK ||| ISTRIP |||
    INLCR ||| IGNCR ||| ICRNL ||| INPCK ||| IGNPAR

/-- The `Lflag` echo bits cleared by `termiosSetRaw` (part of the amended
claim: these are modified in addition to the documented fields). -/
def lflagEchoMask : Nat :=
  ECHOE ||| ECHOK ||| ECHONL ||| ECHOCTL ||| ECHOPRT ||| ECHOKE

/-- The DCB `Flags` positions covered by the documented fields on the
Windows side: binary mode, parity enable, hardware flow control
(CTS/DSR/DTR/RTS), software flow control (OutX/InX), parity-error
substitution and null stripping. -/
def winFlagsDocMask : Nat :=
  dcbfBinary ||| dcbfParity ||| dcbfOutxCTSFlow ||| dcbfOutxDSRFlow |||
    dcbfDTRControl ||| dcbfRTSControl ||| dcbfOutX ||| dcbfInX |||
    dcbfErrorChar ||| dcbfNull

theorem lookup_entry_subset (m : Nat) :
    ∀ (l : List (Int × Nat)), (∀ p ∈ l, p.2 &&& m = p.2) →
      ∀ (k : Int) (v : Nat), l.lookup k = some v → v &&& m = v := by
  intro l
  induction l with
  | nil =>
    intro _ k v h
    simp [List.lookup] at h
  | cons p rest ih =>
    intro hall k v h
    obtain ⟨a, c⟩ := p
    rw [List.lookup] at h
    split at h
    · cases h
      exact hall (a, v) (List.mem_cons_self _ _)
    · exact ih (fun q hq => hall q (List.mem_cons_of_mem _ hq)) k v h

theorem baudRatesLinux_subset (b : Int) (code : Nat)
    (h : baudRatesLinux b = some code) : code &&& CBAUD = code :=
  lookup_entry_subset CBAUD baudRatesLinuxTbl (by decide) b code h

theorem charSizes_subset (x : Int) (code : Nat)
    (h : charSizes x = some code) : code &&& CSIZE = code :=
  lookup_entry_subset CSIZE charSizesTbl (by decide) x code h

theorem setRaw_cflag (t : Termios) (i : Nat) (hi : cflagDocMask.testBit i = false) :
    (termiosSetRaw t).cflag.testBit i = t.cflag.testBit i := by
  have h1 : CREAD.testBit i = false :=
    testBit_subset_false (show CREAD &&& cflagDocMask = CREAD by decide) hi
  have h2 : CLOCAL.testBit i = false :=
    testBit_subset_false (show CLOCAL &&& cflagDocMask = CLOCAL by decide) hi
  have h3 : ICANON.testBit i = false :=
    testBit_subset_false (show ICANON &&& cflagDocMask = ICANON by decide) hi
  have h4 : ISIG.testBit i = false :=
    testBit_subset_false (show ISIG &&& cflagDocMask = ISIG by decide) hi
  have h5 : ECHO.testBit i = false :=
    testBit_subset_false (show ECHO &&& cflagDocMask = ECHO by decide) hi
  have h6 : OPOST.testBit i = false :=
    testBit_subset_false (show OPOST &&& cflagDocMask = OPOST by decide) hi
  simp [termiosSetRaw, Nat.testBit_lor, testBit_andNot, h1, h2, h3, h4, h5, h6]

theorem setRaw_iflag (t : Termios) (i : Nat) (hi : iflagDocMask.testBit i = false) :
    (termiosSetRaw t).iflag.testBit i = t.iflag.testBit i := by
  have h1 : (IXON ||| IXOFF ||| IXANY).testBit i = false :=
    testBit_subset_false
      (show (IXON ||| IXOFF ||| IXANY) &&& iflagDocMask = IXON ||| IXOFF ||| IXANY by decide) hi
  have h2 : (IGNBRK ||| BRKINT ||| PARMRK ||| ISTRIP ||| INLCR ||| IGNCR ||| ICRNL).testBit i
      = false :=
    testBit_subset_false
      (show (IGNBRK ||| BRKINT ||| PARMRK ||| ISTRIP ||| INLCR ||| IGNCR ||| ICRNL) &&&
          iflagDocMask = IGNBRK ||| BRKINT ||| PARMRK ||| ISTRIP ||| INLCR ||| IGNCR ||| ICRNL
        by decide) hi
  simp [termiosSetRaw, testBit_andNot, h1, h2]

theorem setRaw_lflag (t : Termios) (i : Nat) (hi : lflagEchoMask.testBit i = false) :
    (termiosSetRaw t).lflag.testBit i = t.lflag.testBit i := by
  have h1 : ECHOE.testBit i = false :=
    testBit_subset_false (show ECHOE &&& lflagEchoMask = ECHOE by decide) hi
  have h2 : ECHOK.testBit i = false :=
    testBit_subset_false (show ECHOK &&& lflagEchoMask = ECHOK by decide) hi
  have h3 : ECHONL.testBit i = false :=
    testBit_subset_false (show ECHONL &&& lflagEchoMask = ECHONL by decide) hi
  have h4 : ECHOCTL.testBit i = false :=
    testBit_subset_false (show ECHOCTL &&& lflagEchoMask = ECHOCTL by decide) hi
  have h5 : ECHOPRT.testBit i = false :=
    testBit_subset_false (show ECHOPRT &&& lflagEchoMask = ECHOPRT by decide) hi
  have h6 : ECHOKE.testBit i = false :=
    testBit_subset_false (show ECHOKE &&& lflagEchoMask = ECHOKE by decide) hi
  simp [termiosSetRaw, testBit_andNot, h1, h2, h3, h4, h5, h6]

theorem setBaudrate_cflag (t : Termios) (b : Int) (t' : Termios)
    (h : termiosSetBaudrate t b = .ok t') (i : Nat)
    (hi : cflagDocMask.testBit i = false) :
    t'.cflag.testBit i = t.cflag.testBit i := by
  rw [termiosSetBaudrate] at h
  cases hl : baudRatesLinux b with
  | none => rw [hl] at h; cases h
  | some code =>
    rw [hl] at h
    cases h
    have hcb : CBAUD.testBit i = false :=
      testBit_subset_false (show CBAUD &&& cflagDocMask = CBAUD by decide) hi
    have hcd : code.testBit i = false :=
      testBit_subset_false (baudRatesLinux_subset b code hl) hcb
    simp [Nat.testBit_lor, testBit_andNot, hcb, hcd]

theorem setBaudrate_rest (t : Termios) (b : Int) (t' : Termios)
    (h : termiosSetBaudrate t b = .ok t') :
    t'.iflag = t.iflag ∧ t'.lflag = t.lflag ∧ t'.oflag = t.oflag ∧ t'.cc = t.cc := by
  rw [termiosSetBaudrate] at h
  cases hl : baudRatesLinux b with
  | none => rw [hl] at h; cases h
  | some code => rw [hl] at h; cases h; exact ⟨rfl, rfl, rfl, rfl⟩

theorem setCharSize_cflag (t : Termios) (x : Int) (t' : Termios)
    (h : termiosSetCharSize t x = .ok t') (i : Nat)
    (hi : cflagDocMask.testBit i = false) :
    t'.cflag.testBit i = t.cflag.testBit i := by
  rw [termiosSetCharSize] at h
  cases hl : charSizes x with
  | none => rw [hl] at h; cases h
  | some code =>
    rw [hl] at h
    cases h
    have hcs : CSIZE.testBit i = false :=
      testBit_subset_false (show CSIZE &&& cflagDocMask = CSIZE by decide) hi
    have hcd : code.testBit i = false :=
      testBit_subset_false (charSizes_subset x code hl) hcs
    simp [Nat.testBit_lor, testBit_andNot, hcs, hcd]

theorem setCharSize_rest (t : Termios) (x : Int) (t' : Termios)
    (h : termiosSetCharSize t x = .ok t') :
    t'.iflag = t.iflag ∧ t'.lflag = t.lflag ∧ t'.oflag = t.oflag ∧ t'.cc = t.cc := by
  rw [termiosSetCharSize] at h
  cases hl : charSizes x with
  | none => rw [hl] at h; cases h
  | some code => rw [hl] at h; cases h; exact ⟨rfl, rfl, rfl, rfl⟩

theorem setParity_cflag (t : Termios) (p : Int) (t' : Termios)
    (h : termiosSetParity t p = .ok t') (i : Nat)
    (hi : cflagDocMask.testBit i = false) :
    t'.cflag.testBit i = t.cflag.testBit i := by
  have hpe : PARENB.testBit i = false :=
    testBit_subset_false (show PARENB &&& cflagDocMask = PARENB by decide) hi
  have hpo : PARODD.testBit i = false :=
    testBit_subset_false (show PARODD &&& cflagDocMask = PARODD by decide) hi
  rw [termiosSetParity] at h
  split_ifs at h <;> cases h <;>
    simp [Nat.testBit_lor, testBit_andNot, hpe, hpo]

theorem setParity_iflag (t : Termios) (p : Int) (t' : Termios)
    (h : termiosSetParity t p = .ok t') (i : Nat)
    (hi : iflagDocMask.testBit i = false) :
    t'.iflag.testBit i = t.iflag.testBit i := by
  have hpc : INPCK.testBit i = false :=
    testBit_subset_false (show INPCK &&& iflagDocMask = INPCK by decide) hi
  have hgp : IGNPAR.testBit i = false :=
    testBit_subset_false (show IGNPAR &&& iflagDocMask = IGNPAR by decide) hi
  rw [termiosSetParity] at h
  split_ifs at h <;> cases h <;>
    simp [Nat.testBit_lor, testBit_andNot, hpc, hgp]

theorem setParity_rest (t : Termios) (p : Int) (t' : Termios)
    (h : termiosSetParity t p = .ok t') :
    t'.lflag = t.lflag ∧ t'.oflag = t.oflag ∧ t'.cc = t.cc := by
  rw [termiosSetParity] at h
  split_ifs at h <;> cases h <;> exact ⟨rfl, rfl, rfl⟩

theorem setStopBits_cflag (t : Termios) (sb : Int) (t' : Termios)
    (h : termiosSetStopBits t sb = .ok t') (i : Nat)
    (hi : cflagDocMask.testBit i = false) :
    t'.cflag.testBit i = t.cflag.testBit i := by
  have hsb : CSTOPB.testBit i = false :=
    testBit_subset_false (show CSTOPB &&& cflagDocMask = CSTOPB by decide) hi
  rw [termiosSetStopBits] at h
  split_ifs at h <;> cases h <;>
    simp [Nat.testBit_lor, testBit_andNot, hsb]

theorem setStopBits_rest (t : Termios) (sb : Int) (t' : Termios)
    (h : termiosSetStopBits t sb = .ok t') :
    t'.iflag = t.iflag ∧ t'.lflag = t.lflag ∧ t'.oflag = t.oflag ∧ t'.cc = t.cc := by
  rw [termiosSetStopBits] at h
  split_ifs at h <;> cases h <;> exact ⟨rfl, rfl, rfl, rfl⟩

theorem dcbInit_flags (d : Dcb) (i : Nat) (hi : winFlagsDocMask.testBit i = false) :
    (dcbInit d).flags.testBit i = d.flags.testBit i := by
  have h1 : dcbfBinary.testBit i = false :=
    testBit_subset_false (show dcbfBinary &&& winFlagsDocMask = dcbfBinary by decide) hi
  have h2 : dcbfOutxCTSFlow.testBit i = false :=
    testBit_subset_false
      (show dcbfOutxCTSFlow &&& winFlagsDocMask = dcbfOutxCTSFlow by decide) hi
  have h3 : dcbfOutxDSRFlow.testBit i = false :=
    testBit_subset_false
      (show dcbfOutxDSRFlow &&& winFlagsDocMask = dcbfOutxDSRFlow by decide) hi
  have h4 : dcbfDTRControl.testBit i = false :=
    testBit_subset_false
      (show dcbfDTRControl &&& winFlagsDocMask = dcbfDTRControl by decide) hi
  have h5 : dcbfRTSControl.testBit i = false :=
    testBit_subset_false
      (show dcbfRTSControl &&& winFlagsDocMask = dcbfRTSControl by decide) hi
  have h6 : dcbfOutX.testBit i = false :=
    testBit_subset_false (show dcbfOutX &&& winFlagsDocMask = dcbfOutX by decide) hi
  have h7 : dcbfInX.testBit i = false :=
    testBit_subset_false (show dcbfInX &&& winFlagsDocMask = dcbfInX by decide) hi
  have h8 : dcbfErrorChar.testBit i = false :=
    testBit_subset_false
      (show dcbfErrorChar &&& winFlagsDocMask = dcbfErrorChar by decide) hi
  have h9 : dcbfNull.testBit i = false :=
    testBit_subset_false (show dcbfNull &&& winFlagsDocMask = dcbfNull by decide) hi
  simp [dcbInit, Nat.testBit_lor, testBit_andNot, h1, h2, h3, h4, h5, h6, h7, h8, h9]

theorem dcbSetBaudRate_ok (d : Dcb) (b : Int) (d' : Dcb)
    (h : dcbSetBaudRate d b = .ok d') : ∃ r, d' = { d with baudRate := r } := by
  rw [dcbSetBaudRate] at h
  cases hl : baudRatesWin b with
  | none => rw [hl] at h; cases h
  | some rate => rw [hl] at h; cases h; exact ⟨rate, rfl⟩

theorem dcbSetByteSize_ok (d : Dcb) (x : Int) (d' : Dcb)
    (h : dcbSetByteSize d x = .ok d') : ∃ bs, d' = { d with byteSize := bs } := by
  rw [dcbSetByteSize] at h
  split_ifs at h <;> cases h <;> exact ⟨_, rfl⟩

theorem dcbSetStopBits_ok (d : Dcb) (sb : Int) (d' : Dcb)
    (h : dcbSetStopBits d sb = .ok d') : ∃ s, d' = { d with stopBits := s } := by
  rw [dcbSetStopBits] at h
  split_ifs at h <;> cases h <;> exact ⟨_, rfl⟩

theorem dcbSetParity_ok (d : Dcb) (p : Int) (d' : Dcb)
    (h : dcbSetParity d p = .ok d') :
    ∃ fl pa, d' = { d with flags := fl, parity := pa } ∧
      (∀ i, winFlagsDocMask.testBit i = false → fl.testBit i = d.flags.testBit i) := by
  have hpf : ∀ i, winFlagsDocMask.testBit i = false → dcbfParity.testBit i = false :=
    fun i hi =>
      testBit_subset_false (show dcbfParity &&& winFlagsDocMask = dcbfParity by decide) hi
  rw [dcbSetParity] at h
  split_ifs at h <;> cases h
  · exact ⟨_, _, rfl, fun i hi => by simp [testBit_andNot, hpf i hi]⟩
  · exact ⟨_, _, rfl, fun i hi => by simp [Nat.testBit_lor, hpf i hi]⟩
  · exact ⟨_, _, rfl, fun i hi => by simp [Nat.testBit_lor, hpf i hi]⟩

/-- C2 (amended): translation performs read-modify-write touching only the
documented fields — plus, on the POSIX side, the echo-related `Lflag` bits
cleared by `termiosSetRaw` and the `Cc[VTIME]`/`Cc[VMIN]` receive-timeout
characters written by `termiosSetTimeout` (the counterexample's subject).
Every other bit and field of the control block keeps exactly the value
read from the device, on both backends; in particular the source's stray
`Cflag` clears with `ICANON|ISIG|ECHO|OPOST` fall inside the baud-rate
region it overwrites anyway. -/
theorem translation_preserves_unrelated_state (conf : Config) :
    (∀ (t t' : Termios), configureTermios conf t = .ok t' →
        (∀ i, cflagDocMask.testBit i = false →
          t'.cflag.testBit i = t.cflag.testBit i) ∧
        (∀ i, iflagDocMask.testBit i = false →
          t'.iflag.testBit i = t.iflag.testBit i) ∧
        (∀ i, lflagEchoMask.testBit i = false →
          t'.lflag.testBit i = t.lflag.testBit i) ∧
        t'.oflag = t.oflag ∧
        (∀ i, i ≠ VTIME → i ≠ VMIN → t'.cc i = t.cc i)) ∧
    (∀ (d d' : Dcb), configureDCB conf d = .ok d' →
        (∀ i, winFlagsDocMask.testBit i = false →
          d'.flags.testBit i = d.flags.testBit i) ∧
        d'.dcbLength = d.dcbLength ∧ d'.wReserved = d.wReserved ∧
        d'.xonLim = d.xonLim ∧ d'.xoffLim = d.xoffLim ∧
        d'.xonChar = d.xonChar ∧ d'.xoffChar = d.xoffChar ∧
        d'.errorChar = d.errorChar ∧ d'.eofChar = d.eofChar ∧
        d'.evtChar = d.evtChar ∧ d'.wReserved1 = d.wReserved1) := by
  constructor
  · intro t t' h
    rw [configureTermios] at h
    split at h
    · cases h
    · rename_i t1 hb
      split at h
      · cases h
      · rename_i t2 hc
        split at h
        · cases h
        · rename_i t3 hp
          split at h
          · cases h
          · rename_i t4 hs
            cases h
            obtain ⟨hb_if, hb_lf, hb_of, hb_cc⟩ := setBaudrate_rest _ _ _ hb
            obtain ⟨hc_if, hc_lf, hc_of, hc_cc⟩ := setCharSize_rest _ _ _ hc
            obtain ⟨hp_lf, hp_of, hp_cc⟩ := setParity_rest _ _ _ hp
            obtain ⟨hs_if, hs_lf, hs_of, hs_cc⟩ := setStopBits_rest _ _ _ hs
            refine ⟨?_, ?_, ?_, ?_, ?_⟩
            · intro i hi
              calc (termiosSetTimeout t4 tickResolution 0).cflag.testBit i
                  = t4.cflag.testBit i := rfl
                _ = t3.cflag.testBit i := setStopBits_cflag _ _ _ hs i hi
                _ = t2.cflag.testBit i := setParity_cflag _ _ _ hp i hi
                _ = t1.cflag.testBit i := setCharSize_cflag _ _ _ hc i hi
                _ = (termiosSetRaw t).cflag.testBit i := setBaudrate_cflag _ _ _ hb i hi
                _ = t.cflag.testBit i := setRaw_cflag t i hi
            · intro i hi
              calc (termiosSetTimeout t4 tickResolution 0).iflag.testBit i
                  = t4.iflag.testBit i := rfl
                _ = t3.iflag.testBit i := by rw [hs_if]
                _ = t2.iflag.testBit i := setParity_iflag _ _ _ hp i hi
                _ = t1.iflag.testBit i := by rw [hc_if]
                _ = (termiosSetRaw t).iflag.testBit i := by rw [hb_if]
                _ = t.iflag.testBit i := setRaw_iflag t i hi
            · intro i hi
              calc (termiosSetTimeout t4 tickResolution 0).lflag.testBit i
                  = t4.lflag.testBit i := rfl
                _ = t.lflag.testBit i := by
                    rw [hs_lf, hp_lf, hc_lf, hb_lf]
                    exact setRaw_lflag t i hi
            · calc (termiosSetTimeout t4 tickResolution 0).oflag
                  = t4.oflag := rfl
                _ = t.oflag := by rw [hs_of, hp_of, hc_of, hb_of]; rfl
            · intro i h5 h6
              have ht : (termiosSetTimeout t4 tickResolution 0).cc i = t4.cc i := by
                simp [termiosSetTimeout, h5, h6]
              rw [ht, hs_cc, hp_cc, hc_cc, hb_cc]
              rfl
  · intro d d' h
    rw [configureDCB] at h
    split at h
    · cases h
    · rename_i d1 hbr
      split at h
      · cases h
      · rename_i d2 hby
        split at h
        · cases h
        · rename_i d3 hsb
          split at h
          · cases h
          · rename_i d4 hpa
            cases h
            obtain ⟨r, hd1⟩ := dcbSetBaudRate_ok _ _ _ hbr
            obtain ⟨bs, hd2⟩ := dcbSetByteSize_ok _ _ _ hby
            obtain ⟨sb, hd3⟩ := dcbSetStopBits_ok _ _ _ hsb
            obtain ⟨fl, pa, hd4, hfl⟩ := dcbSetParity_ok _ _ _ hpa
            subst hd1
            subst hd2
            subst hd3
            subst hd4
            exact ⟨fun i hi => (hfl i hi).trans (dcbInit_flags d i hi),
              rfl, rfl, rfl, rfl, rfl, rfl, rfl, rfl, rfl, rfl⟩

/-- A device termios block whose words are zero and whose control
characters are all `5`, used as a concrete pre-translation state. -/
def ttyFives : Termios := ⟨0, 0, 0, 0, fun _ => 5⟩

/-- The result of translating the all-zero configuration against
`ttyFives`: `Iflag` gains `INPCK`, `Cflag` encodes 19200/8N-even/1, and
the `Cc` array has `VTIME = 1`, `VMIN = 0`, everything else untouched. -/
def ttyFivesOut : Termios :=
  ⟨0x10, 0, 0x9be, 0, fun i => if i = 5 then 1 else if i = 6 then 0 else 5⟩

/-- C2 counterexample: translating the all-zero configuration against a
device block whose control characters are all `5` rewrites `Cc[VMIN]` from
`5` to `0` (and `Cc[VTIME]` to `1`).  The `Cc` receive-timeout parameters
are not among the claim's documented fields (binary-mode enable, parity,
stop bits, data bits, baud rate, flow-control and special-character-handling
disablement), yet they do not keep the value read from the device. -/
theorem translation_modifies_vmin :
    configureTermios zeroConfig ttyFives = .ok ttyFivesOut ∧
    ttyFives.cc VMIN = 5 ∧ ttyFivesOut.cc VMIN = 0 :=
  ⟨rfl, rfl, rfl⟩

/-- C2 witness: applying `translation_preserves_unrelated_state` to the
concrete translation `ttyFives ⟶ ttyFivesOut` shows bit 10 of `Cflag`
(outside every documented mask) and `Cc[0]` are preserved. -/
theorem translation_preserves_unrelated_state_witness :
    ttyFivesOut.cflag.testBit 10 = ttyFives.cflag.testBit 10 ∧
    ttyFivesOut.cc 0 = ttyFives.cc 0 :=
  ⟨((translation_preserves_unrelated_state zeroConfig).1 ttyFives ttyFivesOut rfl).1 10
      (by decide),
   ((translation_preserves_unrelated_state zeroConfig).1 ttyFives ttyFivesOut rfl).2.2.2.2 0
      (by decide) (by decide)⟩

/-- The value `configureTermios` computes for the all-zero configuration,
written out explicitly: raw-mode bits, then `CBAUD := B19200`,
`CSIZE := CS8`, even parity (`PARENB` set, `PARODD` clear, `INPCK` set,
`IGNPAR` clear), one stop bit (`CSTOPB` clear), then `VTIME/VMIN`. -/
def defaultTranslatedTermios (t : Termios) : Termios :=
  termiosSetTimeout
    { termiosSetRaw t with
      cflag := andNot (andNot ((andNot (andNot (termiosSetRaw t).cflag CBAUD ||| B19200)
                  CSIZE ||| CS8) ||| PARENB) PARODD) CSTOPB,
      iflag := andNot ((termiosSetRaw t).iflag ||| INPCK) IGNPAR }
    tickResolution 0

/-- The value `configureDCB` computes for the all-zero configuration. -/
def defaultTranslatedDcb (d : Dcb) : Dcb :=
  { dcbInit d with
    baudRate := cbr19200, byteSize := 8, stopBits := oneStopBit,
    flags := (dcbInit d).flags ||| dcbfParity, parity := evenParity }

/-- C7: translating the all-zero configuration (baud 0, data bits 0,
`StopBitsNil`, `ParityNil`) encodes the documented defaults into the
native control block on both backends — 19200 baud, 8 data bits, 1 stop
bit, even parity.  POSIX: the `CBAUD` bits equal `B19200`, the `CSIZE`
bits equal `CS8`, `CSTOPB` is clear, `PARENB` set, `PARODD` clear
(the Linux rate/size tables are modelled from the spec, their zero entries
selecting the defaults).  Windows: `BaudRate = CBR_19200`, `ByteSize = 8`,
`StopBits = ONESTOPBIT`, `Parity = EVENPARITY` with the `fParity` bit set. -/
theorem default_config_yields_documented_defaults :
    (∀ (t t' : Termios), configureTermios zeroConfig t = .ok t' →
        t'.cflag &&& CBAUD = B19200 ∧ t'.cflag &&& CSIZE = CS8 ∧
        t'.cflag &&& CSTOPB = 0 ∧ t'.cflag &&& PARENB = PARENB ∧
        t'.cflag &&& PARODD = 0) ∧
    (∀ (d d' : Dcb), configureDCB zeroConfig d = .ok d' →
        d'.baudRate = cbr19200 ∧ d'.byteSize = 8 ∧ d'.stopBits = oneStopBit ∧
        d'.parity = evenParity ∧ d'.flags &&& dcbfParity = dcbfParity) := by
  constructor
  · intro t t' h
    have hY : configureTermios zeroConfig t = .ok (defaultTranslatedTermios t) := rfl
    rw [hY] at h
    injection h with h
    subst h
    refine ⟨?_, ?_, ?_, ?_, ?_⟩
    · show andNot (andNot ((andNot (andNot (termiosSetRaw t).cflag CBAUD ||| B19200)
          CSIZE ||| CS8) ||| PARENB) PARODD) CSTOPB &&& CBAUD = B19200
      rw [andNot_land_of_disjoint (show CSTOPB &&& CBAUD = 0 by decide)]
      rw [andNot_land_of_disjoint (show PARODD &&& CBAUD = 0 by decide)]
      rw [lor_land_of_disjoint (show PARENB &&& CBAUD = 0 by decide)]
      rw [lor_land_of_disjoint (show CS8 &&& CBAUD = 0 by decide)]
      rw [andNot_land_of_disjoint (show CSIZE &&& CBAUD = 0 by decide)]
      rw [land_lor_right, andNot_land_self]
      decide
    · show andNot (andNot ((andNot (andNot (termiosSetRaw t).cflag CBAUD ||| B19200)
          CSIZE ||| CS8) ||| PARENB) PARODD) CSTOPB &&& CSIZE = CS8
      rw [andNot_land_of_disjoint (show CSTOPB &&& CSIZE = 0 by decide)]
      rw [andNot_land_of_disjoint (show PARODD &&& CSIZE = 0 by decide)]
      rw [lor_land_of_disjoint (show PARENB &&& CSIZE = 0 by decide)]
      rw [land_lor_right, andNot_land_self]
      decide
    · exact andNot_land_self _ _
    · show andNot (andNot ((andNot (andNot (termiosSetRaw t).cflag CBAUD ||| B19200)
          CSIZE ||| CS8) ||| PARENB) PARODD) CSTOPB &&& PARENB = PARENB
      rw [andNot_land_of_disjoint (show CSTOPB &&& PARENB = 0 by decide)]
      rw [andNot_land_of_disjoint (show PARODD &&& PARENB = 0 by decide)]
      exact lor_land_self _ _
    · show andNot (andNot ((andNot (andNot (termiosSetRaw t).cflag CBAUD ||| B19200)
          CSIZE ||| CS8) ||| PARENB) PARODD) CSTOPB &&& PARODD = 0
      rw [andNot_land_of_disjoint (show CSTOPB &&& PARODD = 0 by decide)]
      exact andNot_land_self _ _
  · intro d d' h
    have hY : configureDCB zeroConfig d = .ok (defaultTranslatedDcb d) := rfl
    rw [hY] at h
    injection h with h
    subst h
    exact ⟨rfl, rfl, rfl, rfl, lor_land_self _ _⟩

/-- An all-zero DCB, used as a concrete pre-translation device state. -/
def dcbZero : Dcb := ⟨0, 0, 0, 0, 0, 0, 0, 0, 0, 0, 0, 0, 0, 0, 0⟩

/-- The translation of the all-zero configuration against `dcbZero`:
binary mode and `fParity` set, 19200 baud, 8 data bits, even parity,
one stop bit. -/
def dcbZeroOut : Dcb := ⟨0, 0x4b00, 3, 0, 0, 0, 8, 2, 0, 0, 0, 0, 0, 0, 0⟩

/-- C7 witness: applying `default_config_yields_documented_defaults` to the
concrete translations `ttyFives ⟶ ttyFivesOut` and `dcbZero ⟶ dcbZeroOut`. -/
theorem default_config_yields_documented_defaults_witness :
    ttyFivesOut.cflag &&& CBAUD = B19200 ∧ dcbZeroOut.baudRate = cbr19200 ∧
    dcbZeroOut.parity = evenParity :=
  ⟨(default_config_yields_documented_defaults.1 ttyFives ttyFivesOut rfl).1,
   (default_config_yields_documented_defaults.2 dcbZero dcbZeroOut rfl).1,
   (default_config_yields_documented_defaults.2 dcbZero dcbZeroOut rfl).2.2.2.1⟩

/-! ## C8: validation and the open-time device traces -/

/-- Project a configuration's field by name. -/
def fieldValue (c : Config) : ConfField → Int
  | .baudRate => c.baudRate
  | .dataBits => c.dataBits
  | .stopBits => c.stopBits
  | .parity => c.parity

/-- Whether a value is in the POSIX backend's supported set for a field
(the tables' zero entries implement default substitution). -/
def posixFieldSupported : ConfField → Int → Bool
  | .baudRate, v => (baudRatesLinux v).isSome
  | .dataBits, v => (charSizes v).isSome
  | .stopBits, v => v == stopBits1 || v == stopBitsNil || v == stopBits2
  | .parity, v => v == parityNone || v == parityEven || v == parityNil || v == parityOdd

/-- Whether a value is in the Windows backend's supported set for a field. -/
def winFieldSupported : ConfField → Int → Bool
  | .baudRate, v => (baudRatesWin v).isSome
  | .dataBits, v => v == 8 || v == 0 || v == 7 || v == 6 || v == 5
  | .stopBits, v => v == stopBits1 || v == stopBitsNil || v == stopBits2
  | .parity, v => v == parityNone || v == parityEven || v == parityNil || v == parityOdd

/-- Every field of the configuration validates on the POSIX backend. -/
def posixConfValid (c : Config) : Bool :=
  posixFieldSupported .baudRate c.baudRate &&
    posixFieldSupported .dataBits c.dataBits &&
    posixFieldSupported .stopBits c.stopBits &&
    posixFieldSupported .parity c.parity

/-- Every field of the configuration validates on the Windows backend. -/
def winConfValid (c : Config) : Bool :=
  winFieldSupported .baudRate c.baudRate &&
    winFieldSupported .dataBits c.dataBits &&
    winFieldSupported .stopBits c.stopBits &&
    winFieldSupported .parity c.parity

theorem configureTermios_invalid (conf : Config) (t0 : Termios)
    (hinv : posixConfValid conf = false) :
    ∃ e : ConfErr, configureTermios conf t0 = .error e ∧
      e.cvalue = fieldValue conf e.cfield ∧
      posixFieldSupported e.cfield e.cvalue = false := by
  cases hb : baudRatesLinux conf.baudRate with
  | none =>
    exact ⟨⟨.baudRate, conf.baudRate⟩,
      by simp [configureTermios, termiosSetBaudrate, hb], rfl,
      by simp [posixFieldSupported, hb]⟩
  | some code =>
    cases hc : charSizes conf.dataBits with
    | none =>
      exact ⟨⟨.dataBits, conf.dataBits⟩,
        by simp [configureTermios, termiosSetBaudrate, termiosSetCharSize, hb, hc], rfl,
        by simp [posixFieldSupported, hc]⟩
    | some sz =>
      cases hp : posixFieldSupported ConfField.parity conf.parity with
      | false =>
        have hp' : conf.parity ≠ 1 ∧ conf.parity ≠ 3 ∧ conf.parity ≠ 0 ∧
            conf.parity ≠ 2 := by
          simpa [posixFieldSupported, parityNone, parityEven, parityNil, parityOdd,
            and_assoc, or_assoc] using hp
        exact ⟨⟨.parity, conf.parity⟩,
          by simp [configureTermios, termiosSetBaudrate, termiosSetCharSize,
              termiosSetParity, hb, hc, parityNone, parityEven, parityNil, parityOdd,
              hp'.1, hp'.2.1, hp'.2.2.1, hp'.2.2.2],
          rfl, hp⟩
      | true =>
        have hbv : posixFieldSupported ConfField.baudRate conf.baudRate = true := by
          simp [posixFieldSupported, hb]
        have hdv : posixFieldSupported ConfField.dataBits conf.dataBits = true := by
          simp [posixFieldSupported, hc]
        have hsv : posixFieldSupported ConfField.stopBits conf.stopBits = false := by
          cases hx : posixFieldSupported ConfField.stopBits conf.stopBits with
          | false => rfl
          | true =>
            rw [posixConfValid, hbv, hdv, hx, hp] at hinv
            simp at hinv
        have hs' : conf.stopBits ≠ 1 ∧ conf.stopBits ≠ 0 ∧ conf.stopBits ≠ 2 := by
          simpa [posixFieldSupported, stopBits1, stopBitsNil, stopBits2, and_assoc]
            using hsv
        have hpd : conf.parity = 1 ∨ conf.parity = 3 ∨ conf.parity = 0 ∨
            conf.parity = 2 := by
          simpa [posixFieldSupported, parityNone, parityEven, parityNil, parityOdd,
            and_assoc, or_assoc] using hp
        refine ⟨⟨.stopBits, conf.stopBits⟩, ?_, rfl, hsv⟩
        rcases hpd with hv | hv | hv | hv <;>
          simp [configureTermios, termiosSetBaudrate, termiosSetCharSize,
            termiosSetParity, termiosSetStopBits, hb, hc, hv,
            parityNone, parityEven, parityNil, parityOdd,
            stopBits1, stopBitsNil, stopBits2, hs'.1, hs'.2.1, hs'.2.2]

theorem configureDCB_invalid (conf : Config) (d0 : Dcb)
    (hinv : winConfValid conf = false) :
    ∃ e : ConfErr, configureDCB conf d0 = .error e ∧
      e.cvalue = fieldValue conf e.cfield ∧
      winFieldSupported e.cfield e.cvalue = false := by
  cases hb : baudRatesWin conf.baudRate with
  | none =>
    exact ⟨⟨.baudRate, conf.baudRate⟩,
      by simp [configureDCB, dcbSetBaudRate, hb], rfl,
      by simp [winFieldSupported, hb]⟩
  | some rate =>
    cases hby : winFieldSupported ConfField.dataBits conf.dataBits with
    | false =>
      have h' : conf.dataBits ≠ 8 ∧ conf.dataBits ≠ 0 ∧ conf.dataBits ≠ 7 ∧
          conf.dataBits ≠ 6 ∧ conf.dataBits ≠ 5 := by
        simpa [winFieldSupported, and_assoc, or_assoc] using hby
      exact ⟨⟨.dataBits, conf.dataBits⟩,
        by simp [configureDCB, dcbSetBaudRate, dcbSetByteSize, hb,
            h'.1, h'.2.1, h'.2.2.1, h'.2.2.2.1, h'.2.2.2.2],
        rfl, hby⟩
    | true =>
      have hbyd : conf.dataBits = 8 ∨ conf.dataBits = 0 ∨ conf.dataBits = 7 ∨
          conf.dataBits = 6 ∨ conf.dataBits = 5 := by
        simpa [winFieldSupported, and_assoc, or_assoc] using hby
      cases hsb : winFieldSupported ConfField.stopBits conf.stopBits with
      | false =>
        have hs' : conf.stopBits ≠ 1 ∧ conf.stopBits ≠ 0 ∧ conf.stopBits ≠ 2 := by
          simpa [winFieldSupported, stopBits1, stopBitsNil, stopBits2, and_assoc,
            or_assoc] using hsb
        refine ⟨⟨.stopBits, conf.stopBits⟩, ?_, rfl, hsb⟩
        rcases hbyd with hv | hv | hv | hv | hv <;>
          simp [configureDCB, dcbSetBaudRate, dcbSetByteSize, dcbSetStopBits, hb, hv,
            stopBits1, stopBitsNil, stopBits2, hs'.1, hs'.2.1, hs'.2.2]
      | true =>
        have hbv : winFieldSupported ConfField.baudRate conf.baudRate = true := by
          simp [winFieldSupported, hb]
        have hpv : winFieldSupported ConfField.parity conf.parity = false := by
          cases hx : winFieldSupported ConfField.parity conf.parity with
          | false => rfl
          | true =>
            rw [winConfValid, hbv, hby, hsb, hx] at hinv
            simp at hinv
        have hp' : conf.parity ≠ 1 ∧ conf.parity ≠ 3 ∧ conf.parity ≠ 0 ∧
            conf.parity ≠ 2 := by
          simpa [winFieldSupported, parityNone, parityEven, parityNil, parityOdd,
            and_assoc] using hpv
        have hsbd : conf.stopBits = 1 ∨ conf.stopBits = 0 ∨ conf.stopBits = 2 := by
          simpa [winFieldSupported, stopBits1, stopBitsNil, stopBits2, and_assoc,
            or_assoc] using hsb
        refine ⟨⟨.parity, conf.parity⟩, ?_, rfl, hpv⟩
        rcases hbyd with hv | hv | hv | hv | hv <;>
          rcases hsbd with hw | hw | hw <;>
            simp [configureDCB, dcbSetBaudRate, dcbSetByteSize, dcbSetStopBits,
              dcbSetParity, hb, hv, hw, parityNone, parityEven, parityNil, parityOdd,
              stopBits1, stopBitsNil, stopBits2, hp'.1, hp'.2.1, hp'.2.2.1, hp'.2.2.2]

/-- C8: for every configuration with a value outside its supported set
(after default substitution), `nativeOpen` fails with an error naming the
offending field and carrying its value, and the translated control block
is never written to the device: on the POSIX backend the trace stops at
`TCGETS` with no `TCSETS`, and on the Windows backend at `GetCommState`
with no `SetCommState` (the Linux rate/size tables are modelled from the
spec).  The block is applied only after every field has validated. -/
theorem invalid_config_rejected_without_device_write :
    (∀ (conf : Config) (t0 : Termios), posixConfValid conf = false →
        ∃ e : ConfErr, posixOpenTrace conf t0 = ([.getState], some e) ∧
          e.cvalue = fieldValue conf e.cfield ∧
          posixFieldSupported e.cfield e.cvalue = false) ∧
    (∀ (conf : Config) (d0 : Dcb), winConfValid conf = false →
        ∃ e : ConfErr, winOpenTrace conf d0 = ([.create, .getState], some e) ∧
          e.cvalue = fieldValue conf e.cfield ∧
          winFieldSupported e.cfield e.cvalue = false) := by
  constructor
  · intro conf t0 hinv
    obtain ⟨e, he, hv, hs⟩ := configureTermios_invalid conf t0 hinv
    exact ⟨e, by rw [posixOpenTrace, he], hv, hs⟩
  · intro conf d0 hinv
    obtain ⟨e, he, hv, hs⟩ := configureDCB_invalid conf d0 hinv
    exact ⟨e, by rw [winOpenTrace, he], hv, hs⟩

/-- C8 witness: a baud rate of `123` fails POSIX validation and a data-bit
count of `9` fails Windows validation; applying
`invalid_config_rejected_without_device_write` at these inputs yields the
field-naming error and the set-free trace. -/
theorem invalid_config_rejected_witness :
    posixConfValid ⟨123, 0, 0, 0⟩ = false ∧
    (∃ e : ConfErr, posixOpenTrace ⟨123, 0, 0, 0⟩ ttyFives = ([.getState], some e) ∧
      e.cvalue = fieldValue ⟨123, 0, 0, 0⟩ e.cfield ∧
      posixFieldSupported e.cfield e.cvalue = false) ∧
    winConfValid ⟨0, 9, 0, 0⟩ = false ∧
    (∃ e : ConfErr, winOpenTrace ⟨0, 9, 0, 0⟩ dcbZero = ([.create, .getState], some e) ∧
      e.cvalue = fieldValue ⟨0, 9, 0, 0⟩ e.cfield ∧
      winFieldSupported e.cfield e.cvalue = false) :=
  ⟨by decide,
   invalid_config_rejected_without_device_write.1 ⟨123, 0, 0, 0⟩ ttyFives (by decide),
   by decide,
   invalid_config_rejected_without_device_write.2 ⟨0, 9, 0, 0⟩ dcbZero (by decide)⟩

end Serial
